import Mathlib

/-! Terminal Pong: the simulation core of `pong3.c` and `pong2.c`.

Shallow embedding of `init_game` and `update_game`.  The C functions mutate a
`GameState` through a pointer; here they take the state and return the new one.
Every statement of the C body is one `let` that rebinds `game`, in source order.
The body of `update_game` is cut at its own comments into blocks, one definition
per block, and `update_game` runs them in the order of the source.

C `int` fields are `Int`.  Signed overflow is undefined behaviour in C, so the
embedding describes the executions in which no `int` operation overflows; the
constants, comparisons and the order of the assignments are those of the source.
Where an operation does overflow, the compiled programs store the result modulo
`2 ^ 32` (`int`) or `2 ^ 64` (`long`): `Pong3.Machine`, `Pong2.Machine` and
`Prime1948.Machine` embed the same functions with every arithmetic result passed
through `MachineInt.wrap` (`wrap_long`).  The statements about every `GameState`
and about every `num`, the limits of `int` included, are made on these.  The two
embeddings of `update_game` coincide on every state where no operation overflows
(`machine_update_game_eq`), so on every run of fewer than `2 ^ 31` ticks from
`init_game` (`machine_run_eq`), and those of `1948.c` coincide below `46339 ^ 2`.
The `char input` is a `Char`; the `switch` with a `break` in every case is the
chain of `if input = ... then ... else ...` with no default branch.

The `while (1)` loop of `main` is `main_loop`, a function of the keys the terminal
delivers, one `Option Char` per iteration; it returns the `GameState` and the way
the loop stands (`Exit`) when the keys are used up.

`Prime1948` embeds `T04_research/Dima/src/1948.c` and `CharDecode` embeds
`T04_research/Dima/src/char_decode.c`.  The loops of `1948.c` are recursive
functions on a `fuel : Nat` that bounds the evaluations of the loop test; they
return `none` when the bound is reached, and the theorems give a bound that is
enough.  Text written to `stdout` is a `String`.
-/

namespace Pong3

/-- `#define MAX_X 80` -/
def MAX_X : Int := 80

/-- `#define MAX_Y 25` -/
def MAX_Y : Int := 25

/-- `#define BALL_SPEED 5`: number of frames between two moves of the ball. -/
def BALL_SPEED : Int := 5

/-- `typedef struct { int x, y; int speed_x, speed_y; int move_counter; } Ball;` -/
structure Ball where
  x : Int
  y : Int
  speed_x : Int
  speed_y : Int
  move_counter : Int
  deriving DecidableEq, Repr

/-- `typedef struct { int start, end; int x; } Racket;` (`end` is reserved in Lean,
the field is `end_`). -/
structure Racket where
  start : Int
  end_ : Int
  x : Int
  deriving DecidableEq, Repr

/-- `typedef struct { Ball ball; Racket left_racket, right_racket;
int left_score, right_score; } GameState;` -/
structure GameState where
  ball : Ball
  left_racket : Racket
  right_racket : Racket
  left_score : Int
  right_score : Int
  deriving DecidableEq, Repr

/-- `void init_game(GameState *game)` of `pong3.c`, lines 30-46: every field is
overwritten, whatever the structure held before. -/
def init_game (game : GameState) : GameState :=
  let game := { game with ball := { game.ball with x := MAX_X / 2 } }
  let game := { game with ball := { game.ball with y := MAX_Y / 2 } }
  let game := { game with ball := { game.ball with speed_x := 1 } }
  let game := { game with ball := { game.ball with speed_y := 1 } }
  let game := { game with ball := { game.ball with move_counter := 0 } }
  let game := { game with left_racket := { game.left_racket with start := 10 } }
  let game := { game with left_racket := { game.left_racket with end_ := 14 } }
  let game := { game with left_racket := { game.left_racket with x := 3 } }
  let game := { game with right_racket := { game.right_racket with start := 10 } }
  let game := { game with right_racket := { game.right_racket with end_ := 14 } }
  let game := { game with right_racket := { game.right_racket with x := MAX_X - 4 } }
  let game := { game with right_score := 0 }
  let game := { game with left_score := game.right_score }
  game

/-- Lines 85-87 of `pong3.c`: the position update and the counter reset. -/
def ball_position (game : GameState) : GameState :=
  let game := { game with ball := { game.ball with x := game.ball.x + game.ball.speed_x } }
  let game := { game with ball := { game.ball with y := game.ball.y + game.ball.speed_y } }
  let game := { game with ball := { game.ball with move_counter := 0 } }
  game

/-- Lines 89-92 of `pong3.c`: ball collision with top and bottom. -/
def collision_top_bottom (game : GameState) : GameState :=
  if game.ball.y ≤ 1 ∨ game.ball.y ≥ MAX_Y - 1 then
    { game with ball := { game.ball with speed_y := -game.ball.speed_y } }
  else game

/-- Lines 94-102 of `pong3.c`: ball collision with rackets. -/
def collision_rackets (game : GameState) : GameState :=
  if (game.ball.x = game.left_racket.x + 1 ∧
      game.ball.y ≥ game.left_racket.start ∧
      game.ball.y ≤ game.left_racket.end_) ∨
     (game.ball.x = game.right_racket.x - 1 ∧
      game.ball.y ≥ game.right_racket.start ∧
      game.ball.y ≤ game.right_racket.end_) then
    { game with ball := { game.ball with speed_x := -game.ball.speed_x } }
  else game

/-- Lines 104-113 of `pong3.c`: scoring. -/
def scoring (game : GameState) : GameState :=
  if game.ball.x ≤ 1 then
    let game := { game with right_score := game.right_score + 1 }
    let game := { game with ball := { game.ball with x := MAX_X / 2 } }
    let game := { game with ball := { game.ball with y := MAX_Y / 2 } }
    game
  else if game.ball.x ≥ MAX_X - 1 then
    let game := { game with left_score := game.left_score + 1 }
    let game := { game with ball := { game.ball with x := MAX_X / 2 } }
    let game := { game with ball := { game.ball with y := MAX_Y / 2 } }
    game
  else game

/-- Lines 116-142 of `pong3.c`: racket movement, the `switch (input)`. -/
def racket_movement (game : GameState) (input : Char) : GameState :=
  if input = 'a' then
    if game.left_racket.start > 1 then
      let game := { game with left_racket := { game.left_racket with start := game.left_racket.start - 1 } }
      let game := { game with left_racket := { game.left_racket with end_ := game.left_racket.end_ - 1 } }
      game
    else game
  else if input = 'z' then
    if game.left_racket.end_ < MAX_Y - 2 then
      let game := { game with left_racket := { game.left_racket with start := game.left_racket.start + 1 } }
      let game := { game with left_racket := { game.left_racket with end_ := game.left_racket.end_ + 1 } }
      game
    else game
  else if input = 'k' then
    if game.right_racket.start > 1 then
      let game := { game with right_racket := { game.right_racket with start := game.right_racket.start - 1 } }
      let game := { game with right_racket := { game.right_racket with end_ := game.right_racket.end_ - 1 } }
      game
    else game
  else if input = 'm' then
    if game.right_racket.end_ < MAX_Y - 2 then
      let game := { game with right_racket := { game.right_racket with start := game.right_racket.start + 1 } }
      let game := { game with right_racket := { game.right_racket with end_ := game.right_racket.end_ + 1 } }
      game
    else game
  else game

/-- `void update_game(GameState *game, char input)` of `pong3.c`, lines 81-143:
the counter increment, the gated ball update (lines 84-114) and, outside the
gate, the racket movement. -/
def update_game (game : GameState) (input : Char) : GameState :=
  let game := { game with ball := { game.ball with move_counter := game.ball.move_counter + 1 } }
  let game : GameState :=
    if game.ball.move_counter ≥ BALL_SPEED then
      scoring (collision_rackets (collision_top_bottom (ball_position game)))
    else game
  racket_movement game input

/-- The state after `init_game` followed by one `update_game` per input symbol, in
order: the states the program can be in at the end of a tick. -/
def run (game : GameState) (inputs : List Char) : GameState :=
  inputs.foldl update_game (init_game game)

/-- A `GameState` with every field zero, standing for the structure `main` declares
before `init_game` fills it. -/
def blank : GameState := ⟨⟨0, 0, 0, 0, 0⟩, ⟨0, 0, 0⟩, ⟨0, 0, 0⟩, 0, 0⟩

/-- The state of `init_game` with the ball put at `(x, y)` with velocity `(sx, sy)`
and the move counter at `BALL_SPEED - 1`, so that the next tick moves the ball: the
setting of the spec's ball scenarios (left racket `[10,14]` on column 3). -/
def ball_scenario (x y sx sy : Int) : GameState :=
  { init_game blank with ball := ⟨x, y, sx, sy, BALL_SPEED - 1⟩ }

/-- The state of `init_game` with the left racket moved to the span `[1,5]`. -/
def top_racket_scenario : GameState :=
  { init_game blank with left_racket := ⟨1, 5, 3⟩ }

/-- How the loop of `main` (`pong3.c`, lines 163-181) stands when the keys it was
given are used up: left by `break` on `q`, left by `break` on the win test with the
`%s` argument of the final `printf`, or still looping. -/
inductive Exit where
  | quit
  | game_over (winner : String)
  | running
  deriving DecidableEq, Repr

/-- Lines 166-168 of `pong3.c`, the value of `input` in one iteration:
`char input = 0; if (kbhit()) input = getchar();`. -/
def poll_input : Option Char → Char
  | some c => c
  | none => Char.ofNat 0

/-- The `while (1)` loop of `main`, `pong3.c` lines 163-181, one list element per
iteration: `none` when `kbhit()` finds no key (then `input` keeps its initial 0),
`some c` when `getchar()` returns `c`.  Drawing, `usleep` and the terminal mode do
not touch the `GameState` and are left out. -/
def main_loop (game : GameState) : List (Option Char) → GameState × Exit
  | [] => (game, Exit.running)
  | key :: keys =>
    let input : Char := poll_input key
    if key.isSome ∧ input = 'q' then (game, Exit.quit)
    else
      let game := update_game game input
      if game.left_score ≥ 20 ∨ game.right_score ≥ 20 then
        (game, Exit.game_over (if game.left_score ≥ 20 then "Left player" else "Right player"))
      else main_loop game keys

/-- `int main(void)` of `pong3.c`: `init_game` on the local `GameState`, then the
loop. -/
def main (game : GameState) (keys : List (Option Char)) : GameState × Exit :=
  main_loop (init_game game) keys

/-- The ball stays in the field, and on a boundary row it already points inwards. -/
def BallInv (s : GameState) : Prop :=
  1 ≤ s.ball.y ∧ s.ball.y ≤ MAX_Y - 1 ∧ 1 < s.ball.x ∧ s.ball.x < MAX_X - 1 ∧
  (s.ball.y ≤ 1 → s.ball.speed_y = 1) ∧ (s.ball.y ≥ MAX_Y - 1 → s.ball.speed_y = -1) ∧
  (s.ball.speed_y = 1 ∨ s.ball.speed_y = -1)

/-- Both rackets lie in rows `1 .. MAX_Y - 2` on the columns of `init_game`. -/
def RacketInv (s : GameState) : Prop :=
  (1 ≤ s.left_racket.start ∧ s.left_racket.start ≤ s.left_racket.end_ ∧
    s.left_racket.end_ ≤ MAX_Y - 2 ∧ s.left_racket.x = 3) ∧
  (1 ≤ s.right_racket.start ∧ s.right_racket.start ≤ s.right_racket.end_ ∧
    s.right_racket.end_ ≤ MAX_Y - 2 ∧ s.right_racket.x = MAX_X - 4)

end Pong3

namespace Pong2

/-- `#define MAX_X 80` -/
def MAX_X : Int := 80

/-- `#define MAX_Y 25` -/
def MAX_Y : Int := 25

/-- `typedef struct { int x, y; int speed_x, speed_y; } Ball;` of `pong2.c`. -/
structure Ball where
  x : Int
  y : Int
  speed_x : Int
  speed_y : Int
  deriving DecidableEq, Repr

/-- `typedef struct { int start, end; int x; } Racket;` -/
structure Racket where
  start : Int
  end_ : Int
  x : Int
  deriving DecidableEq, Repr

/-- `GameState` of `pong2.c`. -/
structure GameState where
  ball : Ball
  left_racket : Racket
  right_racket : Racket
  left_score : Int
  right_score : Int
  deriving DecidableEq, Repr

/-- `void init_game(GameState *game)` of `pong2.c`, lines 26-41. -/
def init_game (game : GameState) : GameState :=
  let game := { game with ball := { game.ball with x := MAX_X / 2 } }
  let game := { game with ball := { game.ball with y := MAX_Y / 2 } }
  let game := { game with ball := { game.ball with speed_x := 1 } }
  let game := { game with ball := { game.ball with speed_y := 1 } }
  let game := { game with left_racket := { game.left_racket with start := 5 } }
  let game := { game with left_racket := { game.left_racket with end_ := 7 } }
  let game := { game with left_racket := { game.left_racket with x := 3 } }
  let game := { game with right_racket := { game.right_racket with start := 17 } }
  let game := { game with right_racket := { game.right_racket with end_ := 19 } }
  let game := { game with right_racket := { game.right_racket with x := MAX_X - 4 } }
  let game := { game with right_score := 0 }
  let game := { game with left_score := game.right_score }
  game

/-- Lines 75-76 of `pong2.c`: the position update. -/
def ball_position (game : GameState) : GameState :=
  let game := { game with ball := { game.ball with x := game.ball.x + game.ball.speed_x } }
  let game := { game with ball := { game.ball with y := game.ball.y + game.ball.speed_y } }
  game

/-- Lines 78-81 of `pong2.c`: ball collision with top and bottom. -/
def collision_top_bottom (game : GameState) : GameState :=
  if game.ball.y ≤ 1 ∨ game.ball.y ≥ MAX_Y - 1 then
    { game with ball := { game.ball with speed_y := -game.ball.speed_y } }
  else game

/-- Lines 83-91 of `pong2.c`: ball collision with rackets. -/
def collision_rackets (game : GameState) : GameState :=
  if (game.ball.x = game.left_racket.x + 1 ∧
      game.ball.y ≥ game.left_racket.start ∧
      game.ball.y ≤ game.left_racket.end_) ∨
     (game.ball.x = game.right_racket.x - 1 ∧
      game.ball.y ≥ game.right_racket.start ∧
      game.ball.y ≤ game.right_racket.end_) then
    { game with ball := { game.ball with speed_x := -game.ball.speed_x } }
  else game

/-- Lines 93-102 of `pong2.c`: scoring. -/
def scoring (game : GameState) : GameState :=
  if game.ball.x ≤ 1 then
    let game := { game with right_score := game.right_score + 1 }
    let game := { game with ball := { game.ball with x := MAX_X / 2 } }
    let game := { game with ball := { game.ball with y := MAX_Y / 2 } }
    game
  else if game.ball.x ≥ MAX_X - 1 then
    let game := { game with left_score := game.left_score + 1 }
    let game := { game with ball := { game.ball with x := MAX_X / 2 } }
    let game := { game with ball := { game.ball with y := MAX_Y / 2 } }
    game
  else game

/-- Lines 104-130 of `pong2.c`: racket movement, the `switch (input)`. -/
def racket_movement (game : GameState) (input : Char) : GameState :=
  if input = 'a' then
    if game.left_racket.start > 1 then
      let game := { game with left_racket := { game.left_racket with start := game.left_racket.start - 1 } }
      let game := { game with left_racket := { game.left_racket with end_ := game.left_racket.end_ - 1 } }
      game
    else game
  else if input = 'z' then
    if game.left_racket.end_ < MAX_Y - 2 then
      let game := { game with left_racket := { game.left_racket with start := game.left_racket.start + 1 } }
      let game := { game with left_racket := { game.left_racket with end_ := game.left_racket.end_ + 1 } }
      game
    else game
  else if input = 'k' then
    if game.right_racket.start > 1 then
      let game := { game with right_racket := { game.right_racket with start := game.right_racket.start - 1 } }
      let game := { game with right_racket := { game.right_racket with end_ := game.right_racket.end_ - 1 } }
      game
    else game
  else if input = 'm' then
    if game.right_racket.end_ < MAX_Y - 2 then
      let game := { game with right_racket := { game.right_racket with start := game.right_racket.start + 1 } }
      let game := { game with right_racket := { game.right_racket with end_ := game.right_racket.end_ + 1 } }
      game
    else game
  else game

/-- `void update_game(GameState *game, char input)` of `pong2.c`, lines 73-131: the
ball moves on every call, there is no move counter. -/
def update_game (game : GameState) (input : Char) : GameState :=
  racket_movement (scoring (collision_rackets (collision_top_bottom (ball_position game)))) input

end Pong2

namespace Pong3

/-- The fields a `GameState` of `pong3.c` shares with one of `pong2.c`: everything
but `move_counter`. -/
def to_pong2 (game : GameState) : Pong2.GameState :=
  { ball := ⟨game.ball.x, game.ball.y, game.ball.speed_x, game.ball.speed_y⟩
    left_racket := ⟨game.left_racket.start, game.left_racket.end_, game.left_racket.x⟩
    right_racket := ⟨game.right_racket.start, game.right_racket.end_, game.right_racket.x⟩
    left_score := game.left_score
    right_score := game.right_score }

end Pong3

namespace Prime1948

/-- `int is_even(long num)` of `1948.c`, lines 48-53.  `fuel` bounds the number of
times the `while` test is evaluated; `none` means the bound was reached. -/
def is_even : Nat → Int → Option Int
  | 0, _ => none
  | fuel + 1, num =>
    if num > 1 then is_even fuel (num - 2)
    else some (if num = 0 then 1 else 0)

/-- `long modulo_with_subtract(long a, long b)` of `1948.c`, lines 64-69. -/
def modulo_with_subtract : Nat → Int → Int → Option Int
  | 0, _, _ => none
  | fuel + 1, a, b =>
    if a ≥ b then modulo_with_subtract fuel (a - b) b
    else some a

/-- The `for` loop of `is_prime`, lines 76-80, entered with the current `i`; `steps`
bounds the evaluations of its test, `fuel` is handed to `modulo_with_subtract`. -/
def is_prime_for (fuel : Nat) (num : Int) : Nat → Int → Option Int
  | 0, _ => none
  | steps + 1, i =>
    if i * i ≤ num then
      match modulo_with_subtract fuel num i with
      | none => none
      | some r => if r = 0 then some 0 else is_prime_for fuel num steps (i + 2)
    else some 1

/-- `long is_prime(long num)` of `1948.c`, lines 71-82. -/
def is_prime (fuel : Nat) (num : Int) : Option Int :=
  if num ≤ 1 then some 0
  else if num = 2 then some 1
  else
    match is_even fuel num with
    | none => none
    | some e =>
      if e ≠ 0 then some 0
      else is_prime_for fuel num fuel 3

/-- The `for` loop of `largest_prime_divisor`, lines 90-94, entered with the current
`i` and `largest`; the `&&` chain is evaluated left to right with short circuit. -/
def largest_for (fuel : Nat) (num : Int) : Nat → Int → Int → Option Int
  | 0, _, _ => none
  | steps + 1, i, largest =>
    if i ≤ num then
      match is_prime fuel i with
      | none => none
      | some p =>
        if p ≠ 0 then
          match modulo_with_subtract fuel num i with
          | none => none
          | some r =>
            if r = 0 ∧ i > largest then largest_for fuel num steps (i + 1) i
            else largest_for fuel num steps (i + 1) largest
        else largest_for fuel num steps (i + 1) largest
    else some largest

/-- `int largest_prime_divisor(long num)` of `1948.c`, lines 84-96. -/
def largest_prime_divisor (fuel : Nat) (num : Int) : Option Int :=
  if num ≤ 1 then some (-1)
  else largest_for fuel num fuel 2 1

/-- `int process(long num)` of `1948.c`, lines 34-46: the text written to `stdout`
and the value returned.  `printf("%d", res)` writes the decimal numeral of `res`. -/
def process (fuel : Nat) (num : Int) : Option (String × Int) :=
  let num := if num < 0 then -num else num
  match largest_prime_divisor fuel num with
  | none => none
  | some res =>
    if num = -1 then some ("n/a", 1)
    else some (toString res, 0)

end Prime1948

namespace CharDecode

/-- `int char_to_int(char c)` of `char_decode.c`, lines 111-117. -/
def char_to_int (c : Char) : Int :=
  if c ≥ '0' ∧ c ≤ '9' then (c.toNat : Int) - ('0'.toNat : Int)
  else if c ≥ 'A' ∧ c ≤ 'F' then (c.toNat : Int) - ('A'.toNat : Int) + 10
  else -1

/-- What `printf("%c", v)` writes: the character whose code is `v` converted to
`unsigned char`. -/
def printf_c (v : Int) : String :=
  String.singleton (Char.ofNat (v % 256).toNat)

/-- What `printf("%02X", c)` writes for a `char c`: `c` is promoted to `int` (a
`char` above 127 is negative where `char` is signed), read as an `unsigned int`
modulo `2 ^ 32`, and written in upper-case hexadecimal, padded with zeros to at
least two digits. -/
def printf_02X (c : Char) : String :=
  let promoted : Int := if c.toNat < 128 then (c.toNat : Int) else (c.toNat : Int) - 256
  let digits := (Nat.toDigits 16 (promoted % 2 ^ 32).toNat).map Char.toUpper
  String.mk (List.replicate (2 - digits.length) '0' ++ digits)

/-- `void encode(char c)` of `char_decode.c`, lines 87-98: the text written to
`stdout`. -/
def encode (c : Char) : String :=
  if c = ' ' then " "
  else printf_02X c

/-- `void decode(char first, char second)` of `char_decode.c`, lines 100-109: the
text written to `stdout`. -/
def decode (first second : Char) : String :=
  let h := char_to_int first
  let l := char_to_int second
  if h = -1 ∨ l = -1 then "n/a"
  else printf_c (h * 16 + l)

end CharDecode

namespace MachineInt

/-- `INT_MIN` of `<limits.h>`, `int` being 32 bits wide. -/
def INT_MIN : Int := -2147483648

/-- `INT_MAX` of `<limits.h>`, `int` being 32 bits wide. -/
def INT_MAX : Int := 2147483647

/-- `LONG_MAX` of `<limits.h>`, `long` being 64 bits wide. -/
def LONG_MAX : Int := 9223372036854775807

/-- The value an `int` operation stores when its exact result is `v`: the result
modulo `2 ^ 32`, in two's complement.  ISO C leaves signed overflow undefined; this
is what the compiled program computes. -/
def wrap (v : Int) : Int := (v + 2147483648) % 4294967296 - 2147483648

/-- The value a `long` operation stores when its exact result is `v`: the result
modulo `2 ^ 64`, in two's complement. -/
def wrap_long (v : Int) : Int :=
  (v + 9223372036854775808) % 18446744073709551616 - 9223372036854775808

/-- `v` is a value of the type `int`. -/
@[reducible] def is_int (v : Int) : Prop := INT_MIN ≤ v ∧ v ≤ INT_MAX

end MachineInt

namespace Pong3.Machine

open MachineInt

/-- Neither `--` nor `++` can overflow on the bounds of a racket: both are `int`s,
`end > INT_MIN` where the racket can go up (`start > 1`) and `start < INT_MAX` where
it can go down (`end < MAX_Y - 2 = 23`).  Every racket with `start ≤ end` is so. -/
@[reducible] def translation_in_range (start end_ : Int) : Prop :=
  is_int start ∧ is_int end_ ∧ (start > 1 → end_ > INT_MIN) ∧ (end_ < 23 → start < INT_MAX)

/-- Lines 85-87 of `pong3.c` on `int`: the position update and the counter reset. -/
def ball_position (game : GameState) : GameState :=
  let game := { game with ball := { game.ball with x := wrap (game.ball.x + game.ball.speed_x) } }
  let game := { game with ball := { game.ball with y := wrap (game.ball.y + game.ball.speed_y) } }
  let game := { game with ball := { game.ball with move_counter := 0 } }
  game

/-- Lines 89-92 of `pong3.c` on `int`: ball collision with top and bottom. -/
def collision_top_bottom (game : GameState) : GameState :=
  if game.ball.y ≤ 1 ∨ game.ball.y ≥ MAX_Y - 1 then
    { game with ball := { game.ball with speed_y := wrap (-game.ball.speed_y) } }
  else game

/-- Lines 94-102 of `pong3.c` on `int`: ball collision with rackets. -/
def collision_rackets (game : GameState) : GameState :=
  if (game.ball.x = wrap (game.left_racket.x + 1) ∧
      game.ball.y ≥ game.left_racket.start ∧
      game.ball.y ≤ game.left_racket.end_) ∨
     (game.ball.x = wrap (game.right_racket.x - 1) ∧
      game.ball.y ≥ game.right_racket.start ∧
      game.ball.y ≤ game.right_racket.end_) then
    { game with ball := { game.ball with speed_x := wrap (-game.ball.speed_x) } }
  else game

/-- Lines 104-113 of `pong3.c` on `int`: scoring. -/
def scoring (game : GameState) : GameState :=
  if game.ball.x ≤ 1 then
    let game := { game with right_score := wrap (game.right_score + 1) }
    let game := { game with ball := { game.ball with x := MAX_X / 2 } }
    let game := { game with ball := { game.ball with y := MAX_Y / 2 } }
    game
  else if game.ball.x ≥ MAX_X - 1 then
    let game := { game with left_score := wrap (game.left_score + 1) }
    let game := { game with ball := { game.ball with x := MAX_X / 2 } }
    let game := { game with ball := { game.ball with y := MAX_Y / 2 } }
    game
  else game

/-- Lines 116-142 of `pong3.c` on `int`: racket movement, the `switch (input)`. -/
def racket_movement (game : GameState) (input : Char) : GameState :=
  if input = 'a' then
    if game.left_racket.start > 1 then
      let game := { game with left_racket := { game.left_racket with start := wrap (game.left_racket.start - 1) } }
      let game := { game with left_racket := { game.left_racket with end_ := wrap (game.left_racket.end_ - 1) } }
      game
    else game
  else if input = 'z' then
    if game.left_racket.end_ < MAX_Y - 2 then
      let game := { game with left_racket := { game.left_racket with start := wrap (game.left_racket.start + 1) } }
      let game := { game with left_racket := { game.left_racket with end_ := wrap (game.left_racket.end_ + 1) } }
      game
    else game
  else if input = 'k' then
    if game.right_racket.start > 1 then
      let game := { game with right_racket := { game.right_racket with start := wrap (game.right_racket.start - 1) } }
      let game := { game with right_racket := { game.right_racket with end_ := wrap (game.right_racket.end_ - 1) } }
      game
    else game
  else if input = 'm' then
    if game.right_racket.end_ < MAX_Y - 2 then
      let game := { game with right_racket := { game.right_racket with start := wrap (game.right_racket.start + 1) } }
      let game := { game with right_racket := { game.right_racket with end_ := wrap (game.right_racket.end_ + 1) } }
      game
    else game
  else game

/-- `void update_game(GameState *game, char input)` of `pong3.c`, lines 81-143, on
`int`: every `int` operation stores its result modulo `2 ^ 32`; the statements and
their order are those of `Pong3.update_game`. -/
def update_game (game : GameState) (input : Char) : GameState :=
  let game := { game with ball := { game.ball with move_counter := wrap (game.ball.move_counter + 1) } }
  let game : GameState :=
    if game.ball.move_counter ≥ BALL_SPEED then
      scoring (collision_rackets (collision_top_bottom (ball_position game)))
    else game
  racket_movement game input

/-- The state after `init_game` followed by one tick of the compiled `update_game`
per input symbol. -/
def run (game : GameState) (inputs : List Char) : GameState :=
  inputs.foldl update_game (init_game game)

/-- The state of `init_game` with the left racket at `start = 2`, `end = INT_MIN`:
`a` is accepted (`start > 1`) and `end--` overflows. -/
def racket_at_int_min : GameState :=
  { init_game blank with left_racket := ⟨2, INT_MIN, 3⟩ }

/-- The ball at (78,12) with velocity (1,1), about to reach the right edge, with
`left_score = INT_MAX`. -/
def left_score_at_int_max : GameState :=
  { ball_scenario 78 12 1 1 with left_score := INT_MAX }

/-- Scenario 1 of the spec (ball at (2,12), velocity (-1,0)) with
`right_score = INT_MAX`. -/
def right_score_at_int_max : GameState :=
  { ball_scenario 2 12 (-1) 0 with right_score := INT_MAX }

/-- Scenario 1 of the spec (ball at (2,12), velocity (-1,0), left racket `[10,14]` on
column 3) with the right racket `[10,14]` on column 2. -/
def right_racket_on_column_2 : GameState :=
  { ball_scenario 2 12 (-1) 0 with right_racket := ⟨10, 14, 2⟩ }

/-- The state of `init_game` with `move_counter = INT_MAX`. -/
def counter_at_int_max : GameState :=
  { init_game blank with ball := ⟨40, 12, 1, 1, INT_MAX⟩ }

/-- No `int` operation a tick may perform on `game` overflows: the exact result of
each one is an `int`. -/
@[reducible] def tick_in_range (game : GameState) : Prop :=
  is_int (game.ball.move_counter + 1) ∧
  is_int (game.ball.x + game.ball.speed_x) ∧ is_int (game.ball.y + game.ball.speed_y) ∧
  is_int (-game.ball.speed_x) ∧ is_int (-game.ball.speed_y) ∧
  is_int (game.left_racket.x + 1) ∧ is_int (game.right_racket.x - 1) ∧
  is_int (game.left_score + 1) ∧ is_int (game.right_score + 1) ∧
  (is_int (game.left_racket.start - 1) ∧ is_int (game.left_racket.end_ - 1) ∧
    is_int (game.left_racket.start + 1) ∧ is_int (game.left_racket.end_ + 1)) ∧
  (is_int (game.right_racket.start - 1) ∧ is_int (game.right_racket.end_ - 1) ∧
    is_int (game.right_racket.start + 1) ∧ is_int (game.right_racket.end_ + 1))

/-- What holds of a state after `init_game` and at most `ticks` ticks: the ball in
the field pointing inwards on a boundary row, the rackets in the field on their
columns, `speed_x` a unit, the counter below `BALL_SPEED`, and the scores between 0
and `ticks`. -/
def within_ticks (ticks : Nat) (s : GameState) : Prop :=
  BallInv s ∧ RacketInv s ∧ (s.ball.speed_x = -1 ∨ s.ball.speed_x = 1) ∧
  (0 ≤ s.ball.move_counter ∧ s.ball.move_counter < BALL_SPEED) ∧
  (0 ≤ s.left_score ∧ s.left_score ≤ ticks) ∧ (0 ≤ s.right_score ∧ s.right_score ≤ ticks)

end Pong3.Machine

namespace Pong2.Machine

open MachineInt

/-- Lines 75-76 of `pong2.c` on `int`: the position update. -/
def ball_position (game : GameState) : GameState :=
  let game := { game with ball := { game.ball with x := wrap (game.ball.x + game.ball.speed_x) } }
  let game := { game with ball := { game.ball with y := wrap (game.ball.y + game.ball.speed_y) } }
  game

/-- Lines 78-81 of `pong2.c` on `int`: ball collision with top and bottom. -/
def collision_top_bottom (game : GameState) : GameState :=
  if game.ball.y ≤ 1 ∨ game.ball.y ≥ MAX_Y - 1 then
    { game with ball := { game.ball with speed_y := wrap (-game.ball.speed_y) } }
  else game

/-- Lines 83-91 of `pong2.c` on `int`: ball collision with rackets. -/
def collision_rackets (game : GameState) : GameState :=
  if (game.ball.x = wrap (game.left_racket.x + 1) ∧
      game.ball.y ≥ game.left_racket.start ∧
      game.ball.y ≤ game.left_racket.end_) ∨
     (game.ball.x = wrap (game.right_racket.x - 1) ∧
      game.ball.y ≥ game.right_racket.start ∧
      game.ball.y ≤ game.right_racket.end_) then
    { game with ball := { game.ball with speed_x := wrap (-game.ball.speed_x) } }
  else game

/-- Lines 93-102 of `pong2.c` on `int`: scoring. -/
def scoring (game : GameState) : GameState :=
  if game.ball.x ≤ 1 then
    let game := { game with right_score := wrap (game.right_score + 1) }
    let game := { game with ball := { game.ball with x := MAX_X / 2 } }
    let game := { game with ball := { game.ball with y := MAX_Y / 2 } }
    game
  else if game.ball.x ≥ MAX_X - 1 then
    let game := { game with left_score := wrap (game.left_score + 1) }
    let game := { game with ball := { game.ball with x := MAX_X / 2 } }
    let game := { game with ball := { game.ball with y := MAX_Y / 2 } }
    game
  else game

/-- Lines 104-130 of `pong2.c` on `int`: racket movement, the `switch (input)`. -/
def racket_movement (game : GameState) (input : Char) : GameState :=
  if input = 'a' then
    if game.left_racket.start > 1 then
      let game := { game with left_racket := { game.left_racket with start := wrap (game.left_racket.start - 1) } }
      let game := { game with left_racket := { game.left_racket with end_ := wrap (game.left_racket.end_ - 1) } }
      game
    else game
  else if input = 'z' then
    if game.left_racket.end_ < MAX_Y - 2 then
      let game := { game with left_racket := { game.left_racket with start := wrap (game.left_racket.start + 1) } }
      let game := { game with left_racket := { game.left_racket with end_ := wrap (game.left_racket.end_ + 1) } }
      game
    else game
  else if input = 'k' then
    if game.right_racket.start > 1 then
      let game := { game with right_racket := { game.right_racket with start := wrap (game.right_racket.start - 1) } }
      let game := { game with right_racket := { game.right_racket with end_ := wrap (game.right_racket.end_ - 1) } }
      game
    else game
  else if input = 'm' then
    if game.right_racket.end_ < MAX_Y - 2 then
      let game := { game with right_racket := { game.right_racket with start := wrap (game.right_racket.start + 1) } }
      let game := { game with right_racket := { game.right_racket with end_ := wrap (game.right_racket.end_ + 1) } }
      game
    else game
  else game

/-- `void update_game(GameState *game, char input)` of `pong2.c`, lines 73-131, on
`int`. -/
def update_game (game : GameState) (input : Char) : GameState :=
  racket_movement (scoring (collision_rackets (collision_top_bottom (ball_position game)))) input

/-- The state of `init_game` of `pong2.c` with the left racket at `start = 2`,
`end = INT_MIN`. -/
def racket_at_int_min : GameState :=
  { init_game ⟨⟨0, 0, 0, 0⟩, ⟨0, 0, 0⟩, ⟨0, 0, 0⟩, 0, 0⟩ with left_racket := ⟨2, INT_MIN, 3⟩ }

end Pong2.Machine

namespace Prime1948.Machine

open MachineInt

/-- `int is_even(long num)` of `1948.c`, lines 48-53, on `long`. -/
def is_even : Nat → Int → Option Int
  | 0, _ => none
  | fuel + 1, num =>
    if num > 1 then is_even fuel (wrap_long (num - 2))
    else some (if num = 0 then 1 else 0)

/-- `long modulo_with_subtract(long a, long b)` of `1948.c`, lines 64-69, on `long`. -/
def modulo_with_subtract : Nat → Int → Int → Option Int
  | 0, _, _ => none
  | fuel + 1, a, b =>
    if a ≥ b then modulo_with_subtract fuel (wrap_long (a - b)) b
    else some a

/-- The `for` loop of `is_prime`, lines 76-80, with `int i`: `i * i` and `i += 2` are
`int` operations, the comparison with the `long num` is exact. -/
def is_prime_for (fuel : Nat) (num : Int) : Nat → Int → Option Int
  | 0, _ => none
  | steps + 1, i =>
    if wrap (i * i) ≤ num then
      match modulo_with_subtract fuel num i with
      | none => none
      | some r => if r = 0 then some 0 else is_prime_for fuel num steps (wrap (i + 2))
    else some 1

/-- `long is_prime(long num)` of `1948.c`, lines 71-82, with the `int i` of its loop. -/
def is_prime (fuel : Nat) (num : Int) : Option Int :=
  if num ≤ 1 then some 0
  else if num = 2 then some 1
  else
    match is_even fuel num with
    | none => none
    | some e =>
      if e ≠ 0 then some 0
      else is_prime_for fuel num fuel 3

/-- The `for` loop of `largest_prime_divisor`, lines 90-94, with `int i`: `i++` is an
`int` operation, `i <= num` compares with the `long num`. -/
def largest_for (fuel : Nat) (num : Int) : Nat → Int → Int → Option Int
  | 0, _, _ => none
  | steps + 1, i, largest =>
    if i ≤ num then
      match is_prime fuel i with
      | none => none
      | some p =>
        if p ≠ 0 then
          match modulo_with_subtract fuel num i with
          | none => none
          | some r =>
            if r = 0 ∧ i > largest then largest_for fuel num steps (wrap (i + 1)) i
            else largest_for fuel num steps (wrap (i + 1)) largest
        else largest_for fuel num steps (wrap (i + 1)) largest
    else some largest

/-- `int largest_prime_divisor(long num)` of `1948.c`, lines 84-96, with `int i` and
`int largest`. -/
def largest_prime_divisor (fuel : Nat) (num : Int) : Option Int :=
  if num ≤ 1 then some (-1)
  else largest_for fuel num fuel 2 1

end Prime1948.Machine

namespace Pong3

/-! ## What each block leaves alone and what it writes -/

theorem racket_movement_ball (g : GameState) (c : Char) :
    (racket_movement g c).ball = g.ball := by
  unfold racket_movement; split_ifs <;> rfl

theorem racket_movement_scores (g : GameState) (c : Char) :
    (racket_movement g c).left_score = g.left_score ∧
    (racket_movement g c).right_score = g.right_score := by
  unfold racket_movement; split_ifs <;> exact ⟨rfl, rfl⟩

theorem racket_movement_left (g : GameState) (c : Char) :
    (racket_movement g c).left_racket =
      if c = 'a' ∧ g.left_racket.start > 1 then
        { g.left_racket with start := g.left_racket.start - 1, end_ := g.left_racket.end_ - 1 }
      else if c = 'z' ∧ g.left_racket.end_ < MAX_Y - 2 then
        { g.left_racket with start := g.left_racket.start + 1, end_ := g.left_racket.end_ + 1 }
      else g.left_racket := by
  unfold racket_movement; split_ifs <;> simp_all

theorem racket_movement_right (g : GameState) (c : Char) :
    (racket_movement g c).right_racket =
      if c = 'k' ∧ g.right_racket.start > 1 then
        { g.right_racket with start := g.right_racket.start - 1, end_ := g.right_racket.end_ - 1 }
      else if c = 'm' ∧ g.right_racket.end_ < MAX_Y - 2 then
        { g.right_racket with start := g.right_racket.start + 1, end_ := g.right_racket.end_ + 1 }
      else g.right_racket := by
  unfold racket_movement; split_ifs <;> simp_all

theorem scoring_rackets (g : GameState) :
    (scoring g).left_racket = g.left_racket ∧ (scoring g).right_racket = g.right_racket := by
  unfold scoring; split_ifs <;> exact ⟨rfl, rfl⟩

theorem scoring_speed (g : GameState) :
    (scoring g).ball.speed_x = g.ball.speed_x ∧ (scoring g).ball.speed_y = g.ball.speed_y ∧
    (scoring g).ball.move_counter = g.ball.move_counter := by
  unfold scoring; split_ifs <;> exact ⟨rfl, rfl, rfl⟩

theorem scoring_left_edge (g : GameState) (h : g.ball.x ≤ 1) :
    (scoring g).right_score = g.right_score + 1 ∧ (scoring g).left_score = g.left_score ∧
    (scoring g).ball.x = MAX_X / 2 ∧ (scoring g).ball.y = MAX_Y / 2 := by
  unfold scoring; rw [if_pos h]; exact ⟨rfl, rfl, rfl, rfl⟩

theorem scoring_right_edge (g : GameState) (h1 : ¬ g.ball.x ≤ 1) (h : g.ball.x ≥ MAX_X - 1) :
    (scoring g).left_score = g.left_score + 1 ∧ (scoring g).right_score = g.right_score ∧
    (scoring g).ball.x = MAX_X / 2 ∧ (scoring g).ball.y = MAX_Y / 2 := by
  unfold scoring; rw [if_neg h1, if_pos h]; exact ⟨rfl, rfl, rfl, rfl⟩

theorem scoring_inside (g : GameState) (h1 : ¬ g.ball.x ≤ 1) (h : ¬ g.ball.x ≥ MAX_X - 1) :
    scoring g = g := by
  unfold scoring; rw [if_neg h1, if_neg h]

theorem collision_rackets_frame (g : GameState) :
    (collision_rackets g).left_racket = g.left_racket ∧
    (collision_rackets g).right_racket = g.right_racket ∧
    (collision_rackets g).left_score = g.left_score ∧
    (collision_rackets g).right_score = g.right_score ∧
    (collision_rackets g).ball.x = g.ball.x ∧ (collision_rackets g).ball.y = g.ball.y ∧
    (collision_rackets g).ball.speed_y = g.ball.speed_y ∧
    (collision_rackets g).ball.move_counter = g.ball.move_counter := by
  unfold collision_rackets; split_ifs <;> exact ⟨rfl, rfl, rfl, rfl, rfl, rfl, rfl, rfl⟩

theorem collision_rackets_speed_x (g : GameState) :
    (collision_rackets g).ball.speed_x =
      if (g.ball.x = g.left_racket.x + 1 ∧ g.ball.y ≥ g.left_racket.start ∧
          g.ball.y ≤ g.left_racket.end_) ∨
         (g.ball.x = g.right_racket.x - 1 ∧ g.ball.y ≥ g.right_racket.start ∧
          g.ball.y ≤ g.right_racket.end_) then -g.ball.speed_x else g.ball.speed_x := by
  unfold collision_rackets; split_ifs <;> rfl

theorem collision_top_bottom_frame (g : GameState) :
    (collision_top_bottom g).left_racket = g.left_racket ∧
    (collision_top_bottom g).right_racket = g.right_racket ∧
    (collision_top_bottom g).left_score = g.left_score ∧
    (collision_top_bottom g).right_score = g.right_score ∧
    (collision_top_bottom g).ball.x = g.ball.x ∧ (collision_top_bottom g).ball.y = g.ball.y ∧
    (collision_top_bottom g).ball.speed_x = g.ball.speed_x ∧
    (collision_top_bottom g).ball.move_counter = g.ball.move_counter := by
  unfold collision_top_bottom; split_ifs <;> exact ⟨rfl, rfl, rfl, rfl, rfl, rfl, rfl, rfl⟩

theorem collision_top_bottom_speed_y (g : GameState) :
    (collision_top_bottom g).ball.speed_y =
      if g.ball.y ≤ 1 ∨ g.ball.y ≥ MAX_Y - 1 then -g.ball.speed_y else g.ball.speed_y := by
  unfold collision_top_bottom; split_ifs <;> rfl

/-- The state handed to the scoring block on a tick whose gate opens: the ball moved
one step, `speed_y` reflected at the margins, `speed_x` reflected at a racket. -/
theorem before_scoring (g : GameState) :
    collision_rackets (collision_top_bottom (ball_position
        { g with ball := { g.ball with move_counter := g.ball.move_counter + 1 } })) =
      { g with ball :=
        { x := g.ball.x + g.ball.speed_x
          y := g.ball.y + g.ball.speed_y
          speed_x :=
            if (g.ball.x + g.ball.speed_x = g.left_racket.x + 1 ∧
                g.ball.y + g.ball.speed_y ≥ g.left_racket.start ∧
                g.ball.y + g.ball.speed_y ≤ g.left_racket.end_) ∨
               (g.ball.x + g.ball.speed_x = g.right_racket.x - 1 ∧
                g.ball.y + g.ball.speed_y ≥ g.right_racket.start ∧
                g.ball.y + g.ball.speed_y ≤ g.right_racket.end_) then -g.ball.speed_x
            else g.ball.speed_x
          speed_y :=
            if g.ball.y + g.ball.speed_y ≤ 1 ∨ g.ball.y + g.ball.speed_y ≥ MAX_Y - 1 then
              -g.ball.speed_y
            else g.ball.speed_y
          move_counter := 0 } } := by
  unfold collision_rackets collision_top_bottom ball_position
  split_ifs <;> simp_all

theorem update_game_closed (g : GameState) (c : Char)
    (h : g.ball.move_counter + 1 < BALL_SPEED) :
    update_game g c =
      racket_movement
        { g with ball := { g.ball with move_counter := g.ball.move_counter + 1 } } c := by
  have h' : ¬ (g.ball.move_counter + 1 ≥ BALL_SPEED) := not_le.mpr h
  simp only [update_game, if_neg h']

theorem update_game_open (g : GameState) (c : Char)
    (h : g.ball.move_counter + 1 ≥ BALL_SPEED) :
    update_game g c =
      racket_movement (scoring (collision_rackets (collision_top_bottom (ball_position
        { g with ball := { g.ball with move_counter := g.ball.move_counter + 1 } })))) c := by
  simp only [update_game, if_pos h]

/-! ## Invariants of the reachable states -/

theorem ballInv_init (g : GameState) : BallInv (init_game g) := by
  simp [BallInv, init_game, MAX_X, MAX_Y]

theorem ballInv_update (s : GameState) (c : Char) (h : BallInv s) :
    BallInv (update_game s c) := by
  obtain ⟨h1, h2, h3, h4, h5, h6, h7⟩ := h
  by_cases hg : s.ball.move_counter + 1 ≥ BALL_SPEED
  · rw [update_game_open s c hg]
    simp only [BallInv, racket_movement_ball, before_scoring]
    simp only [scoring]
    simp only [MAX_X, MAX_Y] at *
    split_ifs <;> simp <;> omega
  · rw [update_game_closed s c (not_le.mp hg)]
    simp only [BallInv, racket_movement_ball]
    exact ⟨h1, h2, h3, h4, h5, h6, h7⟩

theorem racketInv_init (g : GameState) : RacketInv (init_game g) := by
  simp [RacketInv, init_game, MAX_X, MAX_Y]

theorem update_game_left_racket (s : GameState) (c : Char) :
    (update_game s c).left_racket =
      if c = 'a' ∧ s.left_racket.start > 1 then
        { s.left_racket with start := s.left_racket.start - 1, end_ := s.left_racket.end_ - 1 }
      else if c = 'z' ∧ s.left_racket.end_ < MAX_Y - 2 then
        { s.left_racket with start := s.left_racket.start + 1, end_ := s.left_racket.end_ + 1 }
      else s.left_racket := by
  by_cases hg : s.ball.move_counter + 1 ≥ BALL_SPEED
  · rw [update_game_open s c hg, racket_movement_left, (scoring_rackets _).1, before_scoring]
  · rw [update_game_closed s c (not_le.mp hg), racket_movement_left]

theorem update_game_right_racket (s : GameState) (c : Char) :
    (update_game s c).right_racket =
      if c = 'k' ∧ s.right_racket.start > 1 then
        { s.right_racket with start := s.right_racket.start - 1, end_ := s.right_racket.end_ - 1 }
      else if c = 'm' ∧ s.right_racket.end_ < MAX_Y - 2 then
        { s.right_racket with start := s.right_racket.start + 1, end_ := s.right_racket.end_ + 1 }
      else s.right_racket := by
  by_cases hg : s.ball.move_counter + 1 ≥ BALL_SPEED
  · rw [update_game_open s c hg, racket_movement_right, (scoring_rackets _).2, before_scoring]
  · rw [update_game_closed s c (not_le.mp hg), racket_movement_right]

theorem racketInv_update (s : GameState) (c : Char) (h : RacketInv s) :
    RacketInv (update_game s c) := by
  obtain ⟨⟨a1, a2, a3, a4⟩, b1, b2, b3, b4⟩ := h
  simp only [RacketInv, update_game_left_racket, update_game_right_racket]
  simp only [MAX_X, MAX_Y] at *
  refine ⟨?_, ?_⟩ <;> split_ifs <;> simp <;> omega

/-- An invariant of `init_game` and of `update_game` holds after every run. -/
theorem run_induction (P : GameState → Prop) (hinit : ∀ g, P (init_game g))
    (hstep : ∀ s c, P s → P (update_game s c)) (game : GameState) (inputs : List Char) :
    P (run game inputs) := by
  unfold run
  have key : ∀ (l : List Char) (s : GameState), P s → P (l.foldl update_game s) := by
    intro l
    induction l with
    | nil => intro s hs; exact hs
    | cons c t ih => intro s hs; exact ih _ (hstep s c hs)
  exact key inputs _ (hinit game)

/-! ## The move-cadence gate -/

/-- C1: on a tick whose gate stays closed (`move_counter + 1 < BALL_SPEED`), whatever
the input, `update_game` leaves the ball position, both speeds and both scores as
they were and increments `move_counter` by exactly 1. -/
theorem update_game_gate_closed_ball (game : GameState) (input : Char)
    (hgate : game.ball.move_counter + 1 < BALL_SPEED) :
    BALL_SPEED = 5 ∧
    (update_game game input).ball.x = game.ball.x ∧
    (update_game game input).ball.y = game.ball.y ∧
    (update_game game input).ball.speed_x = game.ball.speed_x ∧
    (update_game game input).ball.speed_y = game.ball.speed_y ∧
    (update_game game input).left_score = game.left_score ∧
    (update_game game input).right_score = game.right_score ∧
    (update_game game input).ball.move_counter = game.ball.move_counter + 1 := by
  rw [update_game_closed game input hgate, racket_movement_ball,
    (racket_movement_scores _ _).1, (racket_movement_scores _ _).2]
  exact ⟨rfl, rfl, rfl, rfl, rfl, rfl, rfl, rfl⟩

/-- Witness of C1: the state of `init_game` (counter 0) with input `z`. -/
theorem update_game_gate_closed_ball_witness :
    BALL_SPEED = 5 ∧
    (update_game (init_game blank) 'z').ball.x = (init_game blank).ball.x ∧
    (update_game (init_game blank) 'z').ball.y = (init_game blank).ball.y ∧
    (update_game (init_game blank) 'z').ball.speed_x = (init_game blank).ball.speed_x ∧
    (update_game (init_game blank) 'z').ball.speed_y = (init_game blank).ball.speed_y ∧
    (update_game (init_game blank) 'z').left_score = (init_game blank).left_score ∧
    (update_game (init_game blank) 'z').right_score = (init_game blank).right_score ∧
    (update_game (init_game blank) 'z').ball.move_counter =
      (init_game blank).ball.move_counter + 1 :=
  update_game_gate_closed_ball (init_game blank) 'z' (by decide)

/-- C2: on a tick whose gate stays closed, an input other than `a`, `z`, `k`, `m`
(the 0 of "no key pending" included) gives back the input state with only
`move_counter` changed, incremented by 1. -/
theorem update_game_gate_closed_noop (game : GameState) (input : Char)
    (hgate : game.ball.move_counter + 1 < BALL_SPEED)
    (ha : input ≠ 'a') (hz : input ≠ 'z') (hk : input ≠ 'k') (hm : input ≠ 'm') :
    update_game game input =
      { game with ball := { game.ball with move_counter := game.ball.move_counter + 1 } } := by
  rw [update_game_closed game input hgate]
  simp only [racket_movement, if_neg ha, if_neg hz, if_neg hk, if_neg hm]

/-- Witness of C2: the state of `init_game` and the input 0 of "no key pending". -/
theorem update_game_gate_closed_noop_witness :
    update_game (init_game blank) (Char.ofNat 0) =
      { init_game blank with
        ball := { (init_game blank).ball with
          move_counter := (init_game blank).ball.move_counter + 1 } } :=
  update_game_gate_closed_noop (init_game blank) (Char.ofNat 0)
    (by decide) (by decide) (by decide) (by decide) (by decide)

/-! ## Reachable states -/

/-- C3: after `init_game` and any sequence of `update_game` ticks the ball is between
the top and bottom margins and strictly between the scoring edges:
`1 ≤ ball.y ≤ MAX_Y - 1` and `1 < ball.x < MAX_X - 1`, with `MAX_X = 80`, `MAX_Y = 25`. -/
theorem run_ball_in_field (game : GameState) (inputs : List Char) :
    MAX_X = 80 ∧ MAX_Y = 25 ∧
    1 ≤ (run game inputs).ball.y ∧ (run game inputs).ball.y ≤ MAX_Y - 1 ∧
    1 < (run game inputs).ball.x ∧ (run game inputs).ball.x < MAX_X - 1 := by
  obtain ⟨h1, h2, h3, h4, _⟩ := run_induction BallInv ballInv_init ballInv_update game inputs
  exact ⟨rfl, rfl, h1, h2, h3, h4⟩

/-- C4: after `init_game` and any sequence of `update_game` ticks both rackets satisfy
`1 ≤ start ≤ end ≤ MAX_Y - 2 = 23` and stand on the columns of `init_game`, 3 for
the left racket and `MAX_X - 4` for the right one. -/
theorem run_rackets_in_field (game : GameState) (inputs : List Char) :
    MAX_Y - 2 = 23 ∧
    (1 ≤ (run game inputs).left_racket.start ∧
      (run game inputs).left_racket.start ≤ (run game inputs).left_racket.end_ ∧
      (run game inputs).left_racket.end_ ≤ MAX_Y - 2 ∧
      (run game inputs).left_racket.x = 3 ∧
      (init_game game).left_racket.x = 3) ∧
    (1 ≤ (run game inputs).right_racket.start ∧
      (run game inputs).right_racket.start ≤ (run game inputs).right_racket.end_ ∧
      (run game inputs).right_racket.end_ ≤ MAX_Y - 2 ∧
      (run game inputs).right_racket.x = MAX_X - 4 ∧
      (init_game game).right_racket.x = MAX_X - 4) := by
  obtain ⟨⟨a1, a2, a3, a4⟩, b1, b2, b3, b4⟩ :=
    run_induction RacketInv racketInv_init racketInv_update game inputs
  exact ⟨rfl, ⟨a1, a2, a3, a4, rfl⟩, b1, b2, b3, b4, rfl⟩

/-! ## Racket movement -/

/-- The left racket is untouched by any number of `a` inputs once its start is at
row 1 or above it. -/
theorem replicate_a_left_racket (n : Nat) (s : GameState) (h : s.left_racket.start ≤ 1) :
    ((List.replicate n 'a').foldl update_game s).left_racket = s.left_racket := by
  induction n generalizing s with
  | zero => rfl
  | succ k ih =>
    have hs : (update_game s 'a').left_racket = s.left_racket := by
      rw [update_game_left_racket]
      have h1 : ¬ ('a' = 'a' ∧ s.left_racket.start > 1) := fun hh => absurd hh.2 (not_lt.mpr h)
      have h2 : ¬ ('a' = 'z' ∧ s.left_racket.end_ < MAX_Y - 2) := fun hh => absurd hh.1 (by decide)
      rw [if_neg h1, if_neg h2]
    rw [List.replicate_succ, List.foldl_cons, ih (update_game s 'a') (hs ▸ h), hs]

/-- C5: a translation that would take `start` below 1 (`a` with left start ≤ 1, `k`
with right start ≤ 1) or `end` above `MAX_Y - 2` (`z` with left end ≥ `MAX_Y - 2`,
`m` with right end ≥ `MAX_Y - 2`) leaves the targeted racket as it was; and from a
left racket spanning `[1,5]` any number of consecutive `a` inputs leaves it at `[1,5]`. -/
theorem update_game_rejects_out_of_field (game : GameState) :
    (game.left_racket.start ≤ 1 → (update_game game 'a').left_racket = game.left_racket) ∧
    (game.right_racket.start ≤ 1 → (update_game game 'k').right_racket = game.right_racket) ∧
    (game.left_racket.end_ ≥ MAX_Y - 2 →
      (update_game game 'z').left_racket = game.left_racket) ∧
    (game.right_racket.end_ ≥ MAX_Y - 2 →
      (update_game game 'm').right_racket = game.right_racket) ∧
    (game.left_racket.start = 1 → game.left_racket.end_ = 5 → ∀ n : Nat,
      ((List.replicate n 'a').foldl update_game game).left_racket.start = 1 ∧
      ((List.replicate n 'a').foldl update_game game).left_racket.end_ = 5) := by
  refine ⟨?_, ?_, ?_, ?_, ?_⟩
  · intro h
    rw [update_game_left_racket]
    have h1 : ¬ ('a' = 'a' ∧ game.left_racket.start > 1) := fun hh => absurd hh.2 (not_lt.mpr h)
    have h2 : ¬ ('a' = 'z' ∧ game.left_racket.end_ < MAX_Y - 2) :=
      fun hh => absurd hh.1 (by decide)
    rw [if_neg h1, if_neg h2]
  · intro h
    rw [update_game_right_racket]
    have h1 : ¬ ('k' = 'k' ∧ game.right_racket.start > 1) := fun hh => absurd hh.2 (not_lt.mpr h)
    have h2 : ¬ ('k' = 'm' ∧ game.right_racket.end_ < MAX_Y - 2) :=
      fun hh => absurd hh.1 (by decide)
    rw [if_neg h1, if_neg h2]
  · intro h
    rw [update_game_left_racket]
    have h1 : ¬ ('z' = 'a' ∧ game.left_racket.start > 1) := fun hh => absurd hh.1 (by decide)
    have h2 : ¬ ('z' = 'z' ∧ game.left_racket.end_ < MAX_Y - 2) :=
      fun hh => absurd hh.2 (not_lt.mpr h)
    rw [if_neg h1, if_neg h2]
  · intro h
    rw [update_game_right_racket]
    have h1 : ¬ ('m' = 'k' ∧ game.right_racket.start > 1) := fun hh => absurd hh.1 (by decide)
    have h2 : ¬ ('m' = 'm' ∧ game.right_racket.end_ < MAX_Y - 2) :=
      fun hh => absurd hh.2 (not_lt.mpr h)
    rw [if_neg h1, if_neg h2]
  · intro hs he n
    rw [replicate_a_left_racket n game (le_of_eq hs)]
    exact ⟨hs, he⟩

/-- Witness of C5: the left racket at `[1,5]` and the right racket at `[10,14]`;
`a` is rejected, and so are three `a` in a row. -/
theorem update_game_rejects_out_of_field_witness :
    (update_game top_racket_scenario 'a').left_racket = top_racket_scenario.left_racket ∧
    ((List.replicate 3 'a').foldl update_game top_racket_scenario).left_racket.start = 1 ∧
    ((List.replicate 3 'a').foldl update_game top_racket_scenario).left_racket.end_ = 5 :=
  ⟨(update_game_rejects_out_of_field top_racket_scenario).1 (by decide),
   (update_game_rejects_out_of_field top_racket_scenario).2.2.2.2 (by decide) (by decide) 3⟩

/-! ## The ball update of a tick whose gate opens -/

/-- The closed form of the ball-side fields after a tick whose gate opens. -/
theorem update_game_open_scoring (g : GameState) (c : Char)
    (h : g.ball.move_counter + 1 ≥ BALL_SPEED) :
    (update_game g c).ball = (scoring (collision_rackets (collision_top_bottom (ball_position
        { g with ball := { g.ball with move_counter := g.ball.move_counter + 1 } })))).ball ∧
    (update_game g c).left_score = (scoring (collision_rackets (collision_top_bottom
        (ball_position
        { g with ball := { g.ball with move_counter := g.ball.move_counter + 1 } })))).left_score ∧
    (update_game g c).right_score = (scoring (collision_rackets (collision_top_bottom
        (ball_position
        { g with ball := { g.ball with move_counter := g.ball.move_counter + 1 } })))).right_score := by
  rw [update_game_open g c h, racket_movement_ball, (racket_movement_scores _ _).1,
    (racket_movement_scores _ _).2]
  exact ⟨rfl, rfl, rfl⟩

/-- Counterexample of C7: in the state of scenario 2 (ball at (4,12), velocity
(-1,0), left racket `[10,14]` on column 3, counter at `BALL_SPEED - 1`) the tick takes
the ball to column 3 without a bounce: `speed_x` stays -1. -/
theorem scenario2_no_bounce :
    (update_game (ball_scenario 4 12 (-1) 0) (Char.ofNat 0)).ball.x = 3 ∧
    (update_game (ball_scenario 4 12 (-1) 0) (Char.ofNat 0)).ball.speed_x = -1 ∧
    ¬ ((update_game (ball_scenario 4 12 (-1) 0) (Char.ofNat 0)).ball.speed_x = 1 ∧
       (update_game (ball_scenario 4 12 (-1) 0) (Char.ofNat 0)).ball.x = 3) := by
  decide

/-- C7 as amended: from the ball at (4,12) with velocity (-1,0), the left racket
`[10,14]` on column 3, the right racket not on column 4 (`init_game` puts it on
column `MAX_X - 4`) and the counter one below the threshold, a tick moves the ball to column 3 and does not bounce:
afterwards `ball.x = 3` and `speed_x = -1`. -/
theorem update_game_scenario2 (game : GameState) (input : Char)
    (hx : game.ball.x = 4) (hy : game.ball.y = 12)
    (hsx : game.ball.speed_x = -1) (hsy : game.ball.speed_y = 0)
    (hl : game.left_racket = ⟨10, 14, 3⟩) (hr : game.right_racket.x ≠ 4)
    (hc : game.ball.move_counter + 1 = BALL_SPEED) :
    (update_game game input).ball.x = 3 ∧ (update_game game input).ball.speed_x = -1 := by
  rw [(update_game_open_scoring game input (le_of_eq hc.symm)).1, before_scoring]
  simp only [scoring, hx, hy, hsx, hsy, hl, MAX_X, MAX_Y]
  simp
  intro h
  exact absurd (by omega) hr

/-- Witness of the amended C7: the state of scenario 2 with the input `k`. -/
theorem update_game_scenario2_witness :
    (update_game (ball_scenario 4 12 (-1) 0) 'k').ball.x = 3 ∧
    (update_game (ball_scenario 4 12 (-1) 0) 'k').ball.speed_x = -1 :=
  update_game_scenario2 (ball_scenario 4 12 (-1) 0) 'k' (by decide) (by decide) (by decide)
    (by decide) (by decide) (by decide) (by decide)

/-- The bounce off the left racket happens on the tick that brings the ball onto
column `left_racket.x + 1 = 4`: from (5,12) with velocity (-1,0) the tick gives
`ball.x = 4` and `speed_x = 1`. -/
theorem bounce_from_column_5 :
    (update_game (ball_scenario 5 12 (-1) 0) (Char.ofNat 0)).ball.x = 4 ∧
    (update_game (ball_scenario 5 12 (-1) 0) (Char.ofNat 0)).ball.speed_x = 1 := by
  decide

/-! ## Reflection, collision and scoring within one tick -/

/-- The ball and scores of a tick whose gate stays closed. -/
theorem update_game_closed_fields (g : GameState) (c : Char)
    (h : g.ball.move_counter + 1 < BALL_SPEED) :
    (update_game g c).ball =
      { g.ball with move_counter := g.ball.move_counter + 1 } ∧
    (update_game g c).left_score = g.left_score ∧
    (update_game g c).right_score = g.right_score := by
  rw [update_game_closed g c h, racket_movement_ball, (racket_movement_scores _ _).1,
    (racket_movement_scores _ _).2]
  exact ⟨rfl, rfl, rfl⟩

/-- What the scoring block writes, field by field. -/
theorem scoring_fields (g : GameState) :
    (scoring g).ball.x = (if g.ball.x ≤ 1 ∨ g.ball.x ≥ MAX_X - 1 then MAX_X / 2 else g.ball.x) ∧
    (scoring g).ball.y = (if g.ball.x ≤ 1 ∨ g.ball.x ≥ MAX_X - 1 then MAX_Y / 2 else g.ball.y) ∧
    (scoring g).right_score = (if g.ball.x ≤ 1 then g.right_score + 1 else g.right_score) ∧
    (scoring g).left_score =
      (if ¬ g.ball.x ≤ 1 ∧ g.ball.x ≥ MAX_X - 1 then g.left_score + 1 else g.left_score) := by
  by_cases h1 : g.ball.x ≤ 1
  · obtain ⟨a, b, c, d⟩ := scoring_left_edge g h1
    rw [a, b, c, d, if_pos (Or.inl h1), if_pos (Or.inl h1), if_pos h1,
      if_neg (fun hh => hh.1 h1)]
    exact ⟨rfl, rfl, rfl, rfl⟩
  · by_cases h2 : g.ball.x ≥ MAX_X - 1
    · obtain ⟨a, b, c, d⟩ := scoring_right_edge g h1 h2
      rw [a, b, c, d, if_pos (Or.inr h2), if_pos (Or.inr h2), if_neg h1, if_pos ⟨h1, h2⟩]
      exact ⟨rfl, rfl, rfl, rfl⟩
    · have h3 : ¬ (g.ball.x ≤ 1 ∨ g.ball.x ≥ MAX_X - 1) := fun hh => hh.elim h1 h2
      rw [scoring_inside g h1 h2, if_neg h3, if_neg h3, if_neg h1, if_neg (fun hh => h2 hh.2)]
      exact ⟨rfl, rfl, rfl, rfl⟩

/-- The ball of a tick whose gate opens, field by field. -/
theorem update_game_open_ball (g : GameState) (c : Char)
    (h : g.ball.move_counter + 1 ≥ BALL_SPEED) :
    (update_game g c).ball.speed_y =
      (if g.ball.y + g.ball.speed_y ≤ 1 ∨ g.ball.y + g.ball.speed_y ≥ MAX_Y - 1 then
        -g.ball.speed_y else g.ball.speed_y) ∧
    (update_game g c).ball.speed_x =
      (if (g.ball.x + g.ball.speed_x = g.left_racket.x + 1 ∧
            g.ball.y + g.ball.speed_y ≥ g.left_racket.start ∧
            g.ball.y + g.ball.speed_y ≤ g.left_racket.end_) ∨
          (g.ball.x + g.ball.speed_x = g.right_racket.x - 1 ∧
            g.ball.y + g.ball.speed_y ≥ g.right_racket.start ∧
            g.ball.y + g.ball.speed_y ≤ g.right_racket.end_) then -g.ball.speed_x
        else g.ball.speed_x) ∧
    (update_game g c).ball.move_counter = 0 ∧
    (update_game g c).ball.x =
      (if g.ball.x + g.ball.speed_x ≤ 1 ∨ g.ball.x + g.ball.speed_x ≥ MAX_X - 1 then MAX_X / 2
        else g.ball.x + g.ball.speed_x) ∧
    (update_game g c).ball.y =
      (if g.ball.x + g.ball.speed_x ≤ 1 ∨ g.ball.x + g.ball.speed_x ≥ MAX_X - 1 then MAX_Y / 2
        else g.ball.y + g.ball.speed_y) := by
  obtain ⟨hb, _, _⟩ := update_game_open_scoring g c h
  rw [hb, (scoring_speed _).1, (scoring_speed _).2.1, (scoring_speed _).2.2,
    (scoring_fields _).1, (scoring_fields _).2.1, before_scoring]
  exact ⟨rfl, rfl, rfl, rfl, rfl⟩

/-- The scores of a tick whose gate opens. -/
theorem update_game_open_scores (g : GameState) (c : Char)
    (h : g.ball.move_counter + 1 ≥ BALL_SPEED) :
    (update_game g c).right_score =
      (if g.ball.x + g.ball.speed_x ≤ 1 then g.right_score + 1 else g.right_score) ∧
    (update_game g c).left_score =
      (if ¬ g.ball.x + g.ball.speed_x ≤ 1 ∧ g.ball.x + g.ball.speed_x ≥ MAX_X - 1 then
        g.left_score + 1 else g.left_score) := by
  obtain ⟨_, hl, hr⟩ := update_game_open_scoring g c h
  rw [hl, hr, (scoring_fields _).2.2.1, (scoring_fields _).2.2.2, before_scoring]
  exact ⟨rfl, rfl⟩

/-- C12: with the rackets on their configured columns (left 3, right `MAX_X - 4`), no
tick both negates `speed_x` by the racket-collision rule and increments a score: when
the gate opens and the moved ball meets the collision test both scores are unchanged,
and a tick that changes a score did not meet the collision test and keeps `speed_x`. -/
theorem update_game_bounce_xor_score (game : GameState) (input : Char)
    (hl : game.left_racket.x = 3) (hr : game.right_racket.x = MAX_X - 4) :
    (game.ball.move_counter + 1 ≥ BALL_SPEED →
      ((game.ball.x + game.ball.speed_x = game.left_racket.x + 1 ∧
          game.ball.y + game.ball.speed_y ≥ game.left_racket.start ∧
          game.ball.y + game.ball.speed_y ≤ game.left_racket.end_) ∨
        (game.ball.x + game.ball.speed_x = game.right_racket.x - 1 ∧
          game.ball.y + game.ball.speed_y ≥ game.right_racket.start ∧
          game.ball.y + game.ball.speed_y ≤ game.right_racket.end_)) →
      (update_game game input).left_score = game.left_score ∧
      (update_game game input).right_score = game.right_score) ∧
    ((update_game game input).left_score ≠ game.left_score ∨
        (update_game game input).right_score ≠ game.right_score →
      game.ball.move_counter + 1 ≥ BALL_SPEED ∧
      ¬ ((game.ball.x + game.ball.speed_x = game.left_racket.x + 1 ∧
          game.ball.y + game.ball.speed_y ≥ game.left_racket.start ∧
          game.ball.y + game.ball.speed_y ≤ game.left_racket.end_) ∨
        (game.ball.x + game.ball.speed_x = game.right_racket.x - 1 ∧
          game.ball.y + game.ball.speed_y ≥ game.right_racket.start ∧
          game.ball.y + game.ball.speed_y ≤ game.right_racket.end_)) ∧
      (update_game game input).ball.speed_x = game.ball.speed_x) := by
  have key : game.ball.move_counter + 1 ≥ BALL_SPEED →
      ((game.ball.x + game.ball.speed_x = game.left_racket.x + 1 ∧
          game.ball.y + game.ball.speed_y ≥ game.left_racket.start ∧
          game.ball.y + game.ball.speed_y ≤ game.left_racket.end_) ∨
        (game.ball.x + game.ball.speed_x = game.right_racket.x - 1 ∧
          game.ball.y + game.ball.speed_y ≥ game.right_racket.start ∧
          game.ball.y + game.ball.speed_y ≤ game.right_racket.end_)) →
      (update_game game input).left_score = game.left_score ∧
      (update_game game input).right_score = game.right_score := by
    intro hgate hhit
    obtain ⟨e1, e2⟩ := update_game_open_scores game input hgate
    have hx : game.ball.x + game.ball.speed_x = 4 ∨ game.ball.x + game.ball.speed_x = 75 := by
      simp only [MAX_X] at hr
      rcases hhit with h | h
      · left; omega
      · right; omega
    have h1 : ¬ game.ball.x + game.ball.speed_x ≤ 1 := by omega
    have h2 : ¬ game.ball.x + game.ball.speed_x ≥ MAX_X - 1 := by simp only [MAX_X]; omega
    rw [e1, e2, if_neg h1, if_neg (fun hh => h2 hh.2)]
    exact ⟨rfl, rfl⟩
  refine ⟨key, ?_⟩
  intro hchg
  by_cases hgate : game.ball.move_counter + 1 ≥ BALL_SPEED
  · have hnhit : ¬ ((game.ball.x + game.ball.speed_x = game.left_racket.x + 1 ∧
          game.ball.y + game.ball.speed_y ≥ game.left_racket.start ∧
          game.ball.y + game.ball.speed_y ≤ game.left_racket.end_) ∨
        (game.ball.x + game.ball.speed_x = game.right_racket.x - 1 ∧
          game.ball.y + game.ball.speed_y ≥ game.right_racket.start ∧
          game.ball.y + game.ball.speed_y ≤ game.right_racket.end_)) := by
      intro hhit
      obtain ⟨a, b⟩ := key hgate hhit
      rcases hchg with h | h
      · exact h a
      · exact h b
    refine ⟨hgate, hnhit, ?_⟩
    rw [(update_game_open_ball game input hgate).2.1, if_neg hnhit]
  · exfalso
    obtain ⟨_, a, b⟩ := update_game_closed_fields game input (not_le.mp hgate)
    rcases hchg with h | h
    · exact h a
    · exact h b

/-- Witness of C12: the ball at (5,12) with velocity (-1,0) arrives next to the left
racket, bounces, and neither score changes. -/
theorem update_game_bounce_xor_score_witness :
    (update_game (ball_scenario 5 12 (-1) 0) 'q').left_score = 0 ∧
    (update_game (ball_scenario 5 12 (-1) 0) 'q').right_score = 0 :=
  (update_game_bounce_xor_score (ball_scenario 5 12 (-1) 0) 'q' (by decide) (by decide)).1
    (by decide) (by decide)

/-! ## The rackets under `update_game` -/

/-- C15: an input other than `a`, `z`, `k`, `m` leaves both rackets unchanged; `a`
and `z` never change the right racket, `k` and `m` never change the left one, and
no input changes the column `x` of either racket. -/
theorem update_game_rackets_frame (game : GameState) (input : Char) :
    (input ≠ 'a' → input ≠ 'z' → input ≠ 'k' → input ≠ 'm' →
      (update_game game input).left_racket = game.left_racket ∧
      (update_game game input).right_racket = game.right_racket) ∧
    (input = 'a' ∨ input = 'z' → (update_game game input).right_racket = game.right_racket) ∧
    (input = 'k' ∨ input = 'm' → (update_game game input).left_racket = game.left_racket) ∧
    (update_game game input).left_racket.x = game.left_racket.x ∧
    (update_game game input).right_racket.x = game.right_racket.x := by
  rw [update_game_left_racket, update_game_right_racket]
  refine ⟨?_, ?_, ?_, ?_, ?_⟩
  · intro ha hz hk hm
    rw [if_neg (fun h => ha h.1), if_neg (fun h => hz h.1), if_neg (fun h => hk h.1),
      if_neg (fun h => hm h.1)]
    exact ⟨rfl, rfl⟩
  · intro h
    have hk : input ≠ 'k' := by rcases h with h | h <;> rw [h] <;> decide
    have hm : input ≠ 'm' := by rcases h with h | h <;> rw [h] <;> decide
    rw [if_neg (fun h => hk h.1), if_neg (fun h => hm h.1)]
  · intro h
    have ha : input ≠ 'a' := by rcases h with h | h <;> rw [h] <;> decide
    have hz : input ≠ 'z' := by rcases h with h | h <;> rw [h] <;> decide
    rw [if_neg (fun h => ha h.1), if_neg (fun h => hz h.1)]
  · split_ifs <;> rfl
  · split_ifs <;> rfl

/-- Witness of C15: in the state of `init_game` the input `x` moves no racket, `a`
leaves the right racket and `m` leaves the left racket. -/
theorem update_game_rackets_frame_witness :
    ((update_game (init_game blank) 'x').left_racket = (init_game blank).left_racket ∧
      (update_game (init_game blank) 'x').right_racket = (init_game blank).right_racket) ∧
    (update_game (init_game blank) 'a').right_racket = (init_game blank).right_racket ∧
    (update_game (init_game blank) 'm').left_racket = (init_game blank).left_racket :=
  ⟨(update_game_rackets_frame (init_game blank) 'x').1
      (by decide) (by decide) (by decide) (by decide),
    (update_game_rackets_frame (init_game blank) 'a').2.1 (Or.inl rfl),
    (update_game_rackets_frame (init_game blank) 'm').2.2.1 (Or.inr rfl)⟩

/-! ## `init_game` -/

/-- C17: whatever the `GameState` held before, `init_game` gives the ball at the
centre `(MAX_X / 2, MAX_Y / 2) = (40, 12)` with velocity (1,1) and counter 0, the
left racket `[10,14]` on column 3, the right racket `[10,14]` on column
`MAX_X - 4 = 76`, and both scores 0. -/
theorem init_game_state (game : GameState) :
    init_game game = ⟨⟨40, 12, 1, 1, 0⟩, ⟨10, 14, 3⟩, ⟨10, 14, 76⟩, 0, 0⟩ ∧
    (init_game game).ball.x = MAX_X / 2 ∧ (init_game game).ball.y = MAX_Y / 2 ∧
    (init_game game).right_racket.x = MAX_X - 4 ∧
    init_game game = init_game blank := by
  exact ⟨rfl, rfl, rfl, rfl, rfl⟩

/-! ## Velocity, counter and scores along a run -/

/-- One tick keeps each speed or negates it. -/
theorem update_game_speed_cases (g : GameState) (c : Char) :
    ((update_game g c).ball.speed_x = g.ball.speed_x ∨
      (update_game g c).ball.speed_x = -g.ball.speed_x) ∧
    ((update_game g c).ball.speed_y = g.ball.speed_y ∨
      (update_game g c).ball.speed_y = -g.ball.speed_y) := by
  by_cases hg : g.ball.move_counter + 1 ≥ BALL_SPEED
  · obtain ⟨hy, hx, _⟩ := update_game_open_ball g c hg
    rw [hy, hx]
    constructor <;> split_ifs <;> simp
  · rw [(update_game_closed_fields g c (not_le.mp hg)).1]
    exact ⟨Or.inl rfl, Or.inl rfl⟩

/-- C18: after `init_game` and any sequence of `update_game` ticks, `speed_x` and
`speed_y` are each -1 or +1. -/
theorem run_speed_unit (game : GameState) (inputs : List Char) :
    ((run game inputs).ball.speed_x = -1 ∨ (run game inputs).ball.speed_x = 1) ∧
    ((run game inputs).ball.speed_y = -1 ∨ (run game inputs).ball.speed_y = 1) := by
  refine run_induction
    (fun s => (s.ball.speed_x = -1 ∨ s.ball.speed_x = 1) ∧
      (s.ball.speed_y = -1 ∨ s.ball.speed_y = 1)) ?_ ?_ game inputs
  · intro g
    exact ⟨Or.inr rfl, Or.inr rfl⟩
  · intro s c h
    obtain ⟨hx, hy⟩ := h
    obtain ⟨cx, cy⟩ := update_game_speed_cases s c
    constructor
    · rcases cx with e | e <;> rcases hx with h | h <;> rw [e, h] <;> simp
    · rcases cy with e | e <;> rcases hy with h | h <;> rw [e, h] <;> simp

/-- The counter after one tick. -/
theorem update_game_counter (g : GameState) (c : Char) :
    (update_game g c).ball.move_counter =
      (if g.ball.move_counter + 1 ≥ BALL_SPEED then 0 else g.ball.move_counter + 1) := by
  by_cases hg : g.ball.move_counter + 1 ≥ BALL_SPEED
  · rw [if_pos hg, (update_game_open_ball g c hg).2.2.1]
  · rw [if_neg hg, (update_game_closed_fields g c (not_le.mp hg)).1]

/-- The counter counts ticks modulo `BALL_SPEED`. -/
theorem foldl_counter (l : List Char) (s : GameState)
    (h0 : 0 ≤ s.ball.move_counter) (h5 : s.ball.move_counter < BALL_SPEED) :
    (l.foldl update_game s).ball.move_counter =
      (s.ball.move_counter + (l.length : Int)) % BALL_SPEED := by
  induction l generalizing s with
  | nil =>
    simp only [BALL_SPEED] at *
    simp only [List.foldl_nil, List.length_nil, Nat.cast_zero, add_zero]
    omega
  | cons c t ih =>
    have hc := update_game_counter s c
    simp only [BALL_SPEED] at *
    have h0' : 0 ≤ (update_game s c).ball.move_counter := by rw [hc]; split_ifs <;> omega
    have h5' : (update_game s c).ball.move_counter < 5 := by rw [hc]; split_ifs <;> omega
    rw [List.foldl_cons, ih (update_game s c) h0' h5', hc, List.length_cons]
    push_cast
    split_ifs <;> omega

/-- C19: after `init_game` and `n` ticks with any inputs the counter is `n mod 5`,
so `0 ≤ move_counter < BALL_SPEED`; the next tick, number `n + 1`, opens the gate
and runs the ball update exactly when `n + 1` is a multiple of `BALL_SPEED = 5`, and
otherwise only increments the counter before the racket movement. -/
theorem run_move_counter (game : GameState) (inputs : List Char) (input : Char) :
    0 ≤ (run game inputs).ball.move_counter ∧
    (run game inputs).ball.move_counter < BALL_SPEED ∧
    (run game inputs).ball.move_counter = (inputs.length : Int) % 5 ∧
    ((run game inputs).ball.move_counter + 1 ≥ BALL_SPEED ↔ (inputs.length + 1) % 5 = 0) ∧
    ((inputs.length + 1) % 5 = 0 →
      update_game (run game inputs) input =
        racket_movement (scoring (collision_rackets (collision_top_bottom (ball_position
          { run game inputs with ball :=
            { (run game inputs).ball with
              move_counter := (run game inputs).ball.move_counter + 1 } })))) input) ∧
    ((inputs.length + 1) % 5 ≠ 0 →
      update_game (run game inputs) input =
        racket_movement
          { run game inputs with ball :=
            { (run game inputs).ball with
              move_counter := (run game inputs).ball.move_counter + 1 } } input) := by
  have hc : (run game inputs).ball.move_counter = (inputs.length : Int) % 5 := by
    have h := foldl_counter inputs (init_game game) (le_refl 0) (show (0 : Int) < 5 by decide)
    simp only [BALL_SPEED] at h
    unfold run
    rw [h]
    show ((0 : Int) + (inputs.length : Int)) % 5 = (inputs.length : Int) % 5
    rw [zero_add]
  have hiff : (run game inputs).ball.move_counter + 1 ≥ BALL_SPEED ↔
      (inputs.length + 1) % 5 = 0 := by
    simp only [BALL_SPEED]
    rw [hc]
    omega
  refine ⟨?_, ?_, hc, hiff, ?_, ?_⟩
  · rw [hc]; omega
  · simp only [BALL_SPEED]; rw [hc]; omega
  · intro h
    exact update_game_open _ _ (hiff.mpr h)
  · intro h
    exact update_game_closed _ _ (not_le.mp (fun hh => h (hiff.mp hh)))

/-- Witness of C19: after four ticks the fifth opens the gate; after five ticks the
sixth does not. -/
theorem run_move_counter_witness :
    update_game (run blank ['a', 'z', 'k', 'm']) 'a' =
        racket_movement (scoring (collision_rackets (collision_top_bottom (ball_position
          { run blank ['a', 'z', 'k', 'm'] with ball :=
            { (run blank ['a', 'z', 'k', 'm']).ball with
              move_counter := (run blank ['a', 'z', 'k', 'm']).ball.move_counter + 1 } }))))
          'a' ∧
    update_game (run blank ['a', 'z', 'k', 'm', 'a']) 'z' =
        racket_movement
          { run blank ['a', 'z', 'k', 'm', 'a'] with ball :=
            { (run blank ['a', 'z', 'k', 'm', 'a']).ball with
              move_counter := (run blank ['a', 'z', 'k', 'm', 'a']).ball.move_counter + 1 } }
          'z' :=
  ⟨(run_move_counter blank ['a', 'z', 'k', 'm'] 'a').2.2.2.2.1 (by decide),
    (run_move_counter blank ['a', 'z', 'k', 'm', 'a'] 'z').2.2.2.2.2 (by decide)⟩

/-- The scores after one tick: at most one of them grows, by one. -/
theorem update_game_scores_cases (g : GameState) (c : Char) :
    ((update_game g c).left_score = g.left_score ∧
      (update_game g c).right_score = g.right_score) ∨
    ((update_game g c).left_score = g.left_score + 1 ∧
      (update_game g c).right_score = g.right_score) ∨
    ((update_game g c).left_score = g.left_score ∧
      (update_game g c).right_score = g.right_score + 1) := by
  by_cases hg : g.ball.move_counter + 1 ≥ BALL_SPEED
  · obtain ⟨hr, hl⟩ := update_game_open_scores g c hg
    rw [hr, hl]
    by_cases h1 : g.ball.x + g.ball.speed_x ≤ 1
    · rw [if_pos h1, if_neg (fun hh => hh.1 h1)]
      exact Or.inr (Or.inr ⟨rfl, rfl⟩)
    · rw [if_neg h1]
      by_cases h2 : g.ball.x + g.ball.speed_x ≥ MAX_X - 1
      · rw [if_pos ⟨h1, h2⟩]
        exact Or.inr (Or.inl ⟨rfl, rfl⟩)
      · rw [if_neg (fun hh => h2 hh.2)]
        exact Or.inl ⟨rfl, rfl⟩
  · obtain ⟨_, hl, hr⟩ := update_game_closed_fields g c (not_le.mp hg)
    exact Or.inl ⟨hl, hr⟩

/-! ## The loop of `main` -/

/-- One iteration of the loop. -/
theorem main_loop_cons (g : GameState) (key : Option Char) (keys : List (Option Char)) :
    main_loop g (key :: keys) =
      if key.isSome ∧ poll_input key = 'q' then (g, Exit.quit)
      else if (update_game g (poll_input key)).left_score ≥ 20 ∨
          (update_game g (poll_input key)).right_score ≥ 20 then
        (update_game g (poll_input key),
          Exit.game_over (if (update_game g (poll_input key)).left_score ≥ 20
            then "Left player" else "Right player"))
      else main_loop (update_game g (poll_input key)) keys := rfl

/-- Keys that follow a `break` are not read; keys that follow a loop still running
are read from the state it reached. -/
theorem main_loop_append (pre post : List (Option Char)) (g : GameState) :
    main_loop g (pre ++ post) =
      if (main_loop g pre).2 = Exit.running then main_loop (main_loop g pre).1 post
      else main_loop g pre := by
  induction pre generalizing g with
  | nil => simp [main_loop]
  | cons key keys ih =>
    rw [List.cons_append, main_loop_cons, main_loop_cons]
    split_ifs <;> simp_all

/-- The scores at the three ways the loop can stand, from a state below the
threshold. -/
theorem main_loop_scores (keys : List (Option Char)) (g : GameState)
    (hl : g.left_score < 20) (hr : g.right_score < 20) :
    ((main_loop g keys).2 = Exit.running ∨ (main_loop g keys).2 = Exit.quit →
      (main_loop g keys).1.left_score < 20 ∧ (main_loop g keys).1.right_score < 20) ∧
    (∀ w, (main_loop g keys).2 = Exit.game_over w →
      (w = "Left player" ∧ (main_loop g keys).1.left_score = 20 ∧
        (main_loop g keys).1.right_score < 20) ∨
      (w = "Right player" ∧ (main_loop g keys).1.right_score = 20 ∧
        (main_loop g keys).1.left_score < 20)) := by
  induction keys generalizing g with
  | nil =>
    refine ⟨fun _ => ⟨hl, hr⟩, ?_⟩
    intro w h
    simp [main_loop] at h
  | cons key keys ih =>
    rw [main_loop_cons]
    by_cases hq : key.isSome ∧ poll_input key = 'q'
    · rw [if_pos hq]
      refine ⟨fun _ => ⟨hl, hr⟩, ?_⟩
      intro w h
      simp at h
    · rw [if_neg hq]
      have hc := update_game_scores_cases g (poll_input key)
      by_cases hw : (update_game g (poll_input key)).left_score ≥ 20 ∨
          (update_game g (poll_input key)).right_score ≥ 20
      · rw [if_pos hw]
        constructor
        · intro h
          simp at h
        · intro w h
          simp only [Exit.game_over.injEq] at h
          by_cases h20 : (update_game g (poll_input key)).left_score ≥ 20
          · rw [if_pos h20] at h
            left
            refine ⟨h.symm, ?_, ?_⟩ <;> simp only <;> omega
          · rw [if_neg h20] at h
            right
            refine ⟨h.symm, ?_, ?_⟩ <;> simp only <;> omega
      · rw [if_neg hw]
        have hl' : (update_game g (poll_input key)).left_score < 20 := by omega
        have hr' : (update_game g (poll_input key)).right_score < 20 := by omega
        exact ih _ hl' hr'

/-- With no key ever pressed the left side wins after 3900 ticks. -/
theorem main_no_key :
    main blank (List.replicate 3900 none) =
      (⟨⟨40, 12, 1, 1, 0⟩, ⟨10, 14, 3⟩, ⟨10, 14, 76⟩, 20, 0⟩, Exit.game_over "Left player") := by
  decide!

/-- With `k` pressed at every iteration the right side wins after 4250 ticks. -/
theorem main_k_held :
    main blank (List.replicate 4250 (some 'k')) =
      (⟨⟨40, 12, -1, -1, 0⟩, ⟨10, 14, 3⟩, ⟨1, 5, 76⟩, 0, 20⟩,
        Exit.game_over "Right player") := by
  decide!

/-- C13: the match is terminal at the threshold 20.  In the loop of `main`, a tick
after which a score is at least 20 ends the loop, whatever keys follow; run from
`init_game`, once the loop has ended by the win test the keys that follow change
nothing, and as long as the loop is running both scores are below 20, so
`update_game` is never applied to a state with a score of 20 or more. -/
theorem main_stops_at_threshold (game s : GameState) (key : Option Char)
    (pre post : List (Option Char)) :
    (¬ (key.isSome ∧ poll_input key = 'q') →
      (update_game s (poll_input key)).left_score ≥ 20 ∨
        (update_game s (poll_input key)).right_score ≥ 20 →
      main_loop s (key :: post) = main_loop s [key] ∧
      (main_loop s [key]).1 = update_game s (poll_input key) ∧
      (main_loop s [key]).2 ≠ Exit.running) ∧
    (∀ w, (main game pre).2 = Exit.game_over w →
      ((main game pre).1.left_score ≥ 20 ∨ (main game pre).1.right_score ≥ 20) ∧
      main game (pre ++ post) = main game pre) ∧
    ((main game pre).2 = Exit.running →
      (main game pre).1.left_score < 20 ∧ (main game pre).1.right_score < 20 ∧
      main game (pre ++ post) = main_loop (main game pre).1 post) := by
  have h0 : (init_game game).left_score < 20 ∧ (init_game game).right_score < 20 :=
    ⟨show (0 : Int) < 20 by decide, show (0 : Int) < 20 by decide⟩
  obtain ⟨hrun, hover⟩ := main_loop_scores pre (init_game game) h0.1 h0.2
  have happ := main_loop_append pre post (init_game game)
  refine ⟨?_, ?_, ?_⟩
  · intro hq hw
    rw [main_loop_cons, main_loop_cons, if_neg hq, if_neg hq, if_pos hw, if_pos hw]
    refine ⟨rfl, rfl, ?_⟩
    intro h
    simp at h
  · intro w hw
    constructor
    · rcases hover w hw with ⟨_, a, _⟩ | ⟨_, a, _⟩
      · left; unfold main; omega
      · right; unfold main; omega
    · unfold main at hw ⊢
      rw [happ, if_neg (by rw [hw]; simp)]
  · intro hr
    unfold main at hr ⊢
    obtain ⟨a, b⟩ := hrun (Or.inl hr)
    refine ⟨a, b, ?_⟩
    rw [happ, if_pos hr]

/-- Witness of C13: with no key pressed the left side reaches 20 after 3900 ticks;
the keys `a`, `z` given after that leave the result as it is. -/
theorem main_stops_at_threshold_witness :
    ((main blank (List.replicate 3900 none)).1.left_score ≥ 20 ∨
      (main blank (List.replicate 3900 none)).1.right_score ≥ 20) ∧
    main blank (List.replicate 3900 none ++ [some 'a', some 'z']) =
      main blank (List.replicate 3900 none) :=
  (main_stops_at_threshold blank blank none (List.replicate 3900 none)
    [some 'a', some 'z']).2.1 "Left player" (by rw [main_no_key])

/-- C14: when the loop of `main`, started from `init_game`, ends by the win test,
the name in the message is "Left player" exactly when `left_score = 20` and
"Right player" exactly when `right_score = 20`, and exactly one of the two scores is
20 while the other is below 20. -/
theorem main_winner (game : GameState) (keys : List (Option Char)) (w : String)
    (h : (main game keys).2 = Exit.game_over w) :
    (w = "Left player" ↔ (main game keys).1.left_score = 20) ∧
    (w = "Right player" ↔ (main game keys).1.right_score = 20) ∧
    (((main game keys).1.left_score = 20 ∧ (main game keys).1.right_score < 20) ∨
      ((main game keys).1.right_score = 20 ∧ (main game keys).1.left_score < 20)) := by
  have h0 : (init_game game).left_score < 20 ∧ (init_game game).right_score < 20 :=
    ⟨show (0 : Int) < 20 by decide, show (0 : Int) < 20 by decide⟩
  have hne : "Left player" ≠ "Right player" := by decide
  unfold main at h ⊢
  rcases (main_loop_scores keys (init_game game) h0.1 h0.2).2 w h with ⟨hw, a, b⟩ | ⟨hw, a, b⟩
  · refine ⟨⟨fun _ => a, fun _ => hw⟩, ⟨fun e => absurd (hw.symm.trans e) hne, ?_⟩,
      Or.inl ⟨a, b⟩⟩
    intro e
    omega
  · refine ⟨⟨fun e => absurd (e.symm.trans hw) hne, ?_⟩, ⟨fun _ => a, fun _ => hw⟩,
      Or.inr ⟨a, b⟩⟩
    intro e
    omega

/-- Witness of C14: with `k` held the right side wins after 4250 ticks, the message
names the right player and the scores are 0 and 20. -/
theorem main_winner_witness :
    (main blank (List.replicate 4250 (some 'k'))).2 = Exit.game_over "Right player" ∧
    ("Right player" = "Right player" ↔
      (main blank (List.replicate 4250 (some 'k'))).1.right_score = 20) :=
  ⟨by rw [main_k_held],
    (main_winner blank (List.replicate 4250 (some 'k')) "Right player"
      (by rw [main_k_held])).2.1⟩

end Pong3

namespace Prime1948

/-! ## `1948.c`: remainder, parity and primality by repeated subtraction -/

/-- The remainder by repeated subtraction, on naturals. -/
theorem modulo_with_subtract_nat (fuel a b : Nat) (hb : 0 < b) (hf : a < fuel) :
    modulo_with_subtract fuel (a : Int) (b : Int) = some ((a % b : Nat) : Int) := by
  induction fuel generalizing a with
  | zero => omega
  | succ n ih =>
    unfold modulo_with_subtract
    by_cases h : b ≤ a
    · have hc : (a : Int) ≥ (b : Int) := Int.ofNat_le.mpr h
      rw [if_pos hc, ← Int.ofNat_sub h, ih (a - b) (by omega), ← Nat.mod_eq_sub_mod h]
    · have hc : ¬ (a : Int) ≥ (b : Int) := fun hh => h (Int.ofNat_le.mp hh)
      rw [if_neg hc, Nat.mod_eq_of_lt (not_le.mp h)]

/-- `is_even` returns 1 on the even naturals and 0 on the odd ones. -/
theorem is_even_nat (fuel n : Nat) (hf : n < fuel) :
    is_even fuel (n : Int) = some (if n % 2 = 0 then 1 else 0) := by
  induction fuel generalizing n with
  | zero => omega
  | succ k ih =>
    unfold is_even
    by_cases h : 1 < n
    · have hc : (n : Int) > 1 := by omega
      have e : (n : Int) - 2 = ((n - 2 : Nat) : Int) := by omega
      have hm : (n - 2) % 2 = n % 2 := by omega
      rw [if_pos hc, e, ih (n - 2) (by omega), hm]
    · have hc : ¬ (n : Int) > 1 := by omega
      rw [if_neg hc]
      have h01 : n = 0 ∨ n = 1 := by omega
      rcases h01 with rfl | rfl <;> simp

/-- The `for` loop of `is_prime` returns 0 exactly when some `d ≥ i` of the parity
of `i` with `d * d ≤ num` divides `num`. -/
theorem is_prime_for_nat (fuel num : Nat) (hf : num < fuel) (steps i : Nat)
    (hi : 1 ≤ i) (hs : 1 ≤ steps) (hsi : num + 2 ≤ steps + i) :
    (is_prime_for fuel (num : Int) steps (i : Int) = some 0 ∧
      ∃ d, i ≤ d ∧ d * d ≤ num ∧ d % 2 = i % 2 ∧ d ∣ num) ∨
    (is_prime_for fuel (num : Int) steps (i : Int) = some 1 ∧
      ¬ ∃ d, i ≤ d ∧ d * d ≤ num ∧ d % 2 = i % 2 ∧ d ∣ num) := by
  induction steps generalizing i with
  | zero => omega
  | succ k ih =>
    unfold is_prime_for
    by_cases h : i * i ≤ num
    · have hc : (i : Int) * (i : Int) ≤ (num : Int) := by exact_mod_cast h
      have hile : i ≤ num := le_trans (Nat.le_mul_self i) h
      rw [if_pos hc, modulo_with_subtract_nat fuel num i hi hf]
      by_cases hd : num % i = 0
      · left
        simp only [hd, Nat.cast_zero, if_true, true_and]
        exact ⟨i, le_refl i, h, rfl, Nat.dvd_of_mod_eq_zero hd⟩
      · have hd' : ¬ ((num % i : Nat) : Int) = 0 := by exact_mod_cast hd
        simp only [hd', if_false]
        have e : (i : Int) + 2 = ((i + 2 : Nat) : Int) := by push_cast; rfl
        rw [e]
        rcases ih (i + 2) (by omega) (by omega) (by omega) with ⟨r, d, h1, h2, h3, h4⟩ | ⟨r, hn⟩
        · left
          exact ⟨r, d, by omega, h2, by omega, h4⟩
        · right
          refine ⟨r, ?_⟩
          rintro ⟨d, h1, h2, h3, h4⟩
          by_cases hdi : d = i
          · subst hdi
            exact hd (Nat.mod_eq_zero_of_dvd h4)
          · exact hn ⟨d, by omega, h2, by omega, h4⟩
    · have hc : ¬ (i : Int) * (i : Int) ≤ (num : Int) := by
        intro hh
        exact h (by exact_mod_cast hh)
      rw [if_neg hc]
      right
      refine ⟨rfl, ?_⟩
      rintro ⟨d, h1, h2, _, _⟩
      exact h (le_trans (Nat.mul_le_mul h1 h1) h2)

/-- `is_prime` decides primality of the naturals. -/
theorem is_prime_nat (fuel n : Nat) (hf : n < fuel) :
    is_prime fuel (n : Int) = some (if n.Prime then 1 else 0) := by
  unfold is_prime
  by_cases h1 : n ≤ 1
  · have hc : (n : Int) ≤ 1 := by omega
    have hp : ¬ n.Prime := fun hp => absurd hp.two_le (by omega)
    rw [if_pos hc, if_neg hp]
  · have hc : ¬ (n : Int) ≤ 1 := by omega
    rw [if_neg hc]
    by_cases h2 : n = 2
    · subst h2
      simp [Nat.prime_two]
    · have hc2 : ¬ (n : Int) = 2 := by omega
      rw [if_neg hc2, is_even_nat fuel n hf]
      by_cases he : n % 2 = 0
      · have hp : ¬ n.Prime := by
          intro hp
          rcases hp.eq_one_or_self_of_dvd 2 (Nat.dvd_of_mod_eq_zero he) with h | h <;> omega
        simp [he, hp]
      · simp only [he, if_false, ne_eq, not_true_eq_false]
        have e3 : (3 : Int) = ((3 : Nat) : Int) := rfl
        rw [e3]
        rcases is_prime_for_nat fuel n hf fuel 3 (by omega) (by omega) (by omega) with
          ⟨r, d, h3, h4, h5, h6⟩ | ⟨r, hn⟩
        · have hp : ¬ n.Prime := by
            intro hp
            rcases hp.eq_one_or_self_of_dvd d h6 with h | h
            · omega
            · subst h
              have : d * 3 ≤ d * d := Nat.mul_le_mul_left d h3
              omega
          rw [r, if_neg hp]
        · have hp : n.Prime := by
            by_contra hnp
            have hpos : 0 < n := by omega
            have hm := Nat.minFac_sq_le_self hpos hnp
            have hmp : (n.minFac).Prime := Nat.minFac_prime (by omega)
            have hmd : n.minFac ∣ n := Nat.minFac_dvd n
            have hm2 : n.minFac ≠ 2 := by
              intro h
              rw [h] at hmd
              exact he (Nat.mod_eq_zero_of_dvd hmd)
            have hodd : n.minFac % 2 = 1 := by
              rcases hmp.eq_two_or_odd with h | h
              · exact absurd h hm2
              · exact h
            have h3 : 3 ≤ n.minFac := by
              have := hmp.two_le
              omega
            exact hn ⟨n.minFac, h3, by rw [← sq]; exact hm, by omega, hmd⟩
          rw [r, if_pos hp]

/-- The `for` loop of `largest_prime_divisor` keeps in `largest` the greatest prime
divisor of `num` below `i`, or 1 when there is none, and ends with the greatest one
up to `num`. -/
theorem largest_for_nat (fuel num : Nat) (hf : num < fuel) (steps i largest : Nat)
    (hi : 2 ≤ i) (hs : 1 ≤ steps) (hsi : num + 2 ≤ steps + i) (hl : largest < i)
    (h1 : largest = 1 ∨ (largest.Prime ∧ largest ∣ num))
    (h2 : ∀ q : Nat, q.Prime → q ∣ num → q < i → q ≤ largest) :
    ∃ p : Nat, largest_for fuel (num : Int) steps (i : Int) (largest : Int) = some (p : Int) ∧
      (p = 1 ∨ (p.Prime ∧ p ∣ num)) ∧
      ∀ q : Nat, q.Prime → q ∣ num → q ≤ num → q ≤ p := by
  induction steps generalizing i largest with
  | zero => omega
  | succ k ih =>
    unfold largest_for
    have e : (i : Int) + 1 = ((i + 1 : Nat) : Int) := by push_cast; rfl
    by_cases h : i ≤ num
    · have hc : (i : Int) ≤ (num : Int) := Int.ofNat_le.mpr h
      rw [if_pos hc, is_prime_nat fuel i (lt_of_le_of_lt h hf)]
      by_cases hp : i.Prime
      · simp only [hp, if_true, ne_eq, one_ne_zero, not_false_eq_true]
        rw [modulo_with_subtract_nat fuel num i (by omega) hf]
        by_cases hd : num % i = 0
        · have hcond : ((num % i : Nat) : Int) = 0 ∧ (i : Int) > (largest : Int) :=
            ⟨by exact_mod_cast hd, by exact_mod_cast hl⟩
          simp only [hcond, and_self, if_true]
          rw [e]
          refine ih (i + 1) i (by omega) (by omega) (by omega) (by omega)
            (Or.inr ⟨hp, Nat.dvd_of_mod_eq_zero hd⟩) ?_
          intro q _ _ hq
          omega
        · have hcond : ¬ (((num % i : Nat) : Int) = 0 ∧ (i : Int) > (largest : Int)) := by
            intro hh
            exact hd (by exact_mod_cast hh.1)
          simp only [hcond, if_false]
          rw [e]
          refine ih (i + 1) largest (by omega) (by omega) (by omega) (by omega) h1 ?_
          intro q hq hqd hlt
          by_cases hqi : q = i
          · subst hqi
            exact absurd (Nat.mod_eq_zero_of_dvd hqd) hd
          · exact h2 q hq hqd (by omega)
      · simp only [hp, if_false, ne_eq, not_true_eq_false]
        rw [e]
        refine ih (i + 1) largest (by omega) (by omega) (by omega) (by omega) h1 ?_
        intro q hq hqd hlt
        by_cases hqi : q = i
        · subst hqi
          exact absurd hq hp
        · exact h2 q hq hqd (by omega)
    · have hc : ¬ (i : Int) ≤ (num : Int) := fun hh => h (Int.ofNat_le.mp hh)
      rw [if_neg hc]
      exact ⟨largest, rfl, h1, fun q hq hqd hqn => h2 q hq hqd (by omega)⟩

/-- `largest_prime_divisor` on a natural `num ≥ 2`. -/
theorem largest_prime_divisor_nat (fuel num : Nat) (h2 : 2 ≤ num) (hf : num < fuel) :
    ∃ p : Nat, largest_prime_divisor fuel (num : Int) = some (p : Int) ∧ p.Prime ∧ p ∣ num ∧
      ∀ q : Nat, q.Prime → q ∣ num → q ≤ p := by
  unfold largest_prime_divisor
  have hc : ¬ (num : Int) ≤ 1 := by omega
  rw [if_neg hc]
  obtain ⟨p, hp, hcase, hmax⟩ := largest_for_nat fuel num hf fuel 2 1 (le_refl 2) (by omega)
    (by omega) (by omega) (Or.inl rfl)
    (fun q hq _ hlt => absurd hq.two_le (by omega))
  have hle : ∀ q : Nat, q.Prime → q ∣ num → q ≤ p :=
    fun q hq hqd => hmax q hq hqd (Nat.le_of_dvd (by omega) hqd)
  have hm : num.minFac ≤ p := hle _ (Nat.minFac_prime (by omega)) (Nat.minFac_dvd num)
  have hm2 : 2 ≤ num.minFac := (Nat.minFac_prime (by omega)).two_le
  refine ⟨p, hp, ?_, ?_, hle⟩
  · rcases hcase with h | h
    · omega
    · exact h.1
  · rcases hcase with h | h
    · omega
    · exact h.2

/-- C23, the code at the inputs where it departs from the claim: for `num` = 1, 0
and -1 `largest_prime_divisor` returns -1, but `process` tests `num == -1` after
`num` was made non-negative, so it prints "-1" and returns 0; on no input does it
print "n/a" and return 1. -/
theorem process_never_reports (fuel : Nat) (num : Int) :
    process fuel 1 = some ("-1", 0) ∧
    process fuel 0 = some ("-1", 0) ∧
    process fuel (-1) = some ("-1", 0) ∧
    largest_prime_divisor fuel 1 = some (-1) ∧
    process fuel num ≠ some ("n/a", 1) ∧
    (process fuel num = none ∨ ∃ out, process fuel num = some (out, 0)) := by
  have key : process fuel num = none ∨ ∃ out, process fuel num = some (out, 0) := by
    unfold process
    have hn : ¬ (if num < 0 then -num else num) = -1 := by
      split_ifs <;> omega
    simp only [hn, if_false]
    cases largest_prime_divisor fuel (if num < 0 then -num else num) with
    | none => exact Or.inl rfl
    | some res => exact Or.inr ⟨toString res, rfl⟩
  refine ⟨rfl, rfl, rfl, rfl, ?_, key⟩
  intro h
  rcases key with k | ⟨out, k⟩
  · rw [k] at h
    exact Option.noConfusion h
  · rw [k] at h
    have h2 := congrArg (fun r => (r.map Prod.snd)) h
    simp at h2

end Prime1948

namespace CharDecode

/-! ## `char_decode.c`: the hex codec -/

/-- The two digits `encode` writes for the codes 0..127, checked code by code. -/
theorem encode_digits (n : Nat) (hn : n < 128) (hs : n ≠ 32) :
    (encode (Char.ofNat n)).data =
      [(Nat.digitChar (n / 16)).toUpper, (Nat.digitChar (n % 16)).toUpper] ∧
    char_to_int (Nat.digitChar (n / 16)).toUpper = n / 16 ∧
    char_to_int (Nat.digitChar (n % 16)).toUpper = n % 16 ∧
    decode (Nat.digitChar (n / 16)).toUpper (Nat.digitChar (n % 16)).toUpper =
      String.singleton (Char.ofNat n) := by
  revert n
  decide!

/-- C24: for every character `c` with code 0..127 other than the space, `encode`
writes exactly two characters `high`, `low`, both accepted by `char_to_int` (not
-1), with `char_to_int high * 16 + char_to_int low` the code of `c`, and `decode`
of the two writes `c`; and `char_to_int` returns -1 for every character outside
`'0'..'9'` and `'A'..'F'`. -/
theorem hex_round_trip (c : Char) :
    (c.toNat < 128 → c ≠ ' ' →
      ∃ high low : Char, (encode c).data = [high, low] ∧
        char_to_int high ≠ -1 ∧ char_to_int low ≠ -1 ∧
        char_to_int high * 16 + char_to_int low = (c.toNat : Int) ∧
        decode high low = String.singleton c) ∧
    (¬ ((c ≥ '0' ∧ c ≤ '9') ∨ (c ≥ 'A' ∧ c ≤ 'F')) → char_to_int c = -1) := by
  constructor
  · intro hn hs
    have hs' : c.toNat ≠ 32 := by
      intro h
      apply hs
      rw [← Char.ofNat_toNat c, h]
    obtain ⟨e, hh, hl, hd⟩ := encode_digits c.toNat hn hs'
    rw [Char.ofNat_toNat] at e hd
    refine ⟨_, _, e, ?_, ?_, ?_, hd⟩
    · rw [hh]; omega
    · rw [hl]; omega
    · rw [hh, hl]; omega
  · intro h
    unfold char_to_int
    rw [if_neg (fun hh => h (Or.inl hh)), if_neg (fun hh => h (Or.inr hh))]

/-- Witness of C24: `encode` writes "4B" for `K`, and `decode` of `4`, `B` writes
`K`; `char_to_int` of `g` is -1. -/
theorem hex_round_trip_witness :
    (∃ high low : Char, (encode 'K').data = [high, low] ∧
        char_to_int high ≠ -1 ∧ char_to_int low ≠ -1 ∧
        char_to_int high * 16 + char_to_int low = ('K'.toNat : Int) ∧
        decode high low = String.singleton 'K') ∧
    char_to_int 'g' = -1 :=
  ⟨(hex_round_trip 'K').1 (by decide) (by decide), (hex_round_trip 'g').2 (by decide)⟩

end CharDecode

namespace MachineInt

/-! ## `int` results -/

/-- An exact result that is an `int` is stored unchanged. -/
theorem wrap_of_is_int (v : Int) (h : is_int v) : wrap v = v := by
  unfold is_int INT_MIN INT_MAX at h
  unfold wrap
  omega

/-- What is stored is an `int`. -/
theorem is_int_wrap (v : Int) : is_int (wrap v) := by
  unfold is_int INT_MIN INT_MAX wrap
  omega

/-- An exact `long` result within range is stored unchanged. -/
theorem wrap_long_of_range (v : Int) (h0 : 0 ≤ v) (h1 : v ≤ LONG_MAX) : wrap_long v = v := by
  unfold LONG_MAX at h1
  unfold wrap_long
  omega

end MachineInt

namespace Pong3.Machine

open MachineInt

/-! ## The blocks of `update_game` on `int` -/

theorem machine_racket_movement_ball (g : GameState) (c : Char) :
    (racket_movement g c).ball = g.ball := by
  unfold racket_movement; split_ifs <;> rfl

theorem machine_racket_movement_scores (g : GameState) (c : Char) :
    (racket_movement g c).left_score = g.left_score ∧
    (racket_movement g c).right_score = g.right_score := by
  unfold racket_movement; split_ifs <;> exact ⟨rfl, rfl⟩

theorem machine_racket_movement_left (g : GameState) (c : Char) :
    (racket_movement g c).left_racket =
      if c = 'a' ∧ g.left_racket.start > 1 then
        { g.left_racket with
          start := wrap (g.left_racket.start - 1), end_ := wrap (g.left_racket.end_ - 1) }
      else if c = 'z' ∧ g.left_racket.end_ < MAX_Y - 2 then
        { g.left_racket with
          start := wrap (g.left_racket.start + 1), end_ := wrap (g.left_racket.end_ + 1) }
      else g.left_racket := by
  unfold racket_movement; split_ifs <;> simp_all

theorem machine_racket_movement_right (g : GameState) (c : Char) :
    (racket_movement g c).right_racket =
      if c = 'k' ∧ g.right_racket.start > 1 then
        { g.right_racket with
          start := wrap (g.right_racket.start - 1), end_ := wrap (g.right_racket.end_ - 1) }
      else if c = 'm' ∧ g.right_racket.end_ < MAX_Y - 2 then
        { g.right_racket with
          start := wrap (g.right_racket.start + 1), end_ := wrap (g.right_racket.end_ + 1) }
      else g.right_racket := by
  unfold racket_movement; split_ifs <;> simp_all

theorem machine_scoring_rackets (g : GameState) :
    (scoring g).left_racket = g.left_racket ∧ (scoring g).right_racket = g.right_racket := by
  unfold scoring; split_ifs <;> exact ⟨rfl, rfl⟩

theorem machine_scoring_speed (g : GameState) :
    (scoring g).ball.speed_x = g.ball.speed_x ∧ (scoring g).ball.speed_y = g.ball.speed_y ∧
    (scoring g).ball.move_counter = g.ball.move_counter := by
  unfold scoring; split_ifs <;> exact ⟨rfl, rfl, rfl⟩

/-- What the scoring block writes, field by field. -/
theorem machine_scoring_fields (g : GameState) :
    (scoring g).ball.x = (if g.ball.x ≤ 1 ∨ g.ball.x ≥ MAX_X - 1 then MAX_X / 2 else g.ball.x) ∧
    (scoring g).ball.y = (if g.ball.x ≤ 1 ∨ g.ball.x ≥ MAX_X - 1 then MAX_Y / 2 else g.ball.y) ∧
    (scoring g).right_score =
      (if g.ball.x ≤ 1 then wrap (g.right_score + 1) else g.right_score) ∧
    (scoring g).left_score =
      (if ¬ g.ball.x ≤ 1 ∧ g.ball.x ≥ MAX_X - 1 then wrap (g.left_score + 1)
        else g.left_score) := by
  unfold scoring
  by_cases h1 : g.ball.x ≤ 1
  · rw [if_pos h1, if_pos (Or.inl h1), if_pos (Or.inl h1), if_pos h1,
      if_neg (fun hh => hh.1 h1)]
    exact ⟨rfl, rfl, rfl, rfl⟩
  · by_cases h2 : g.ball.x ≥ MAX_X - 1
    · rw [if_neg h1, if_pos h2, if_pos (Or.inr h2), if_pos (Or.inr h2), if_neg h1,
        if_pos ⟨h1, h2⟩]
      exact ⟨rfl, rfl, rfl, rfl⟩
    · have h3 : ¬ (g.ball.x ≤ 1 ∨ g.ball.x ≥ MAX_X - 1) := fun hh => hh.elim h1 h2
      rw [if_neg h1, if_neg h2, if_neg h3, if_neg h3, if_neg h1, if_neg (fun hh => h2 hh.2)]
      exact ⟨rfl, rfl, rfl, rfl⟩

/-- The state handed to the scoring block on a tick whose gate opens. -/
theorem machine_before_scoring (g : GameState) (k : Int) :
    collision_rackets (collision_top_bottom (ball_position
        { g with ball := { g.ball with move_counter := k } })) =
      { g with ball :=
        { x := wrap (g.ball.x + g.ball.speed_x)
          y := wrap (g.ball.y + g.ball.speed_y)
          speed_x :=
            if (wrap (g.ball.x + g.ball.speed_x) = wrap (g.left_racket.x + 1) ∧
                wrap (g.ball.y + g.ball.speed_y) ≥ g.left_racket.start ∧
                wrap (g.ball.y + g.ball.speed_y) ≤ g.left_racket.end_) ∨
               (wrap (g.ball.x + g.ball.speed_x) = wrap (g.right_racket.x - 1) ∧
                wrap (g.ball.y + g.ball.speed_y) ≥ g.right_racket.start ∧
                wrap (g.ball.y + g.ball.speed_y) ≤ g.right_racket.end_) then
              wrap (-g.ball.speed_x)
            else g.ball.speed_x
          speed_y :=
            if wrap (g.ball.y + g.ball.speed_y) ≤ 1 ∨
                wrap (g.ball.y + g.ball.speed_y) ≥ MAX_Y - 1 then
              wrap (-g.ball.speed_y)
            else g.ball.speed_y
          move_counter := 0 } } := by
  unfold collision_rackets collision_top_bottom ball_position
  split_ifs <;> simp_all

theorem machine_update_game_closed (g : GameState) (c : Char)
    (h : ¬ wrap (g.ball.move_counter + 1) ≥ BALL_SPEED) :
    update_game g c =
      racket_movement
        { g with ball := { g.ball with move_counter := wrap (g.ball.move_counter + 1) } } c := by
  simp only [update_game, if_neg h]

theorem machine_update_game_open (g : GameState) (c : Char)
    (h : wrap (g.ball.move_counter + 1) ≥ BALL_SPEED) :
    update_game g c =
      racket_movement (scoring (collision_rackets (collision_top_bottom (ball_position
        { g with ball :=
          { g.ball with move_counter := wrap (g.ball.move_counter + 1) } })))) c := by
  simp only [update_game, if_pos h]

theorem machine_update_game_left_racket (s : GameState) (c : Char) :
    (update_game s c).left_racket =
      if c = 'a' ∧ s.left_racket.start > 1 then
        { s.left_racket with
          start := wrap (s.left_racket.start - 1), end_ := wrap (s.left_racket.end_ - 1) }
      else if c = 'z' ∧ s.left_racket.end_ < MAX_Y - 2 then
        { s.left_racket with
          start := wrap (s.left_racket.start + 1), end_ := wrap (s.left_racket.end_ + 1) }
      else s.left_racket := by
  by_cases hg : wrap (s.ball.move_counter + 1) ≥ BALL_SPEED
  · rw [machine_update_game_open s c hg, machine_racket_movement_left,
      (machine_scoring_rackets _).1, machine_before_scoring]
  · rw [machine_update_game_closed s c hg, machine_racket_movement_left]

theorem machine_update_game_right_racket (s : GameState) (c : Char) :
    (update_game s c).right_racket =
      if c = 'k' ∧ s.right_racket.start > 1 then
        { s.right_racket with
          start := wrap (s.right_racket.start - 1), end_ := wrap (s.right_racket.end_ - 1) }
      else if c = 'm' ∧ s.right_racket.end_ < MAX_Y - 2 then
        { s.right_racket with
          start := wrap (s.right_racket.start + 1), end_ := wrap (s.right_racket.end_ + 1) }
      else s.right_racket := by
  by_cases hg : wrap (s.ball.move_counter + 1) ≥ BALL_SPEED
  · rw [machine_update_game_open s c hg, machine_racket_movement_right,
      (machine_scoring_rackets _).2, machine_before_scoring]
  · rw [machine_update_game_closed s c hg, machine_racket_movement_right]

/-- The ball and scores of a tick whose gate stays closed. -/
theorem machine_update_game_closed_fields (g : GameState) (c : Char)
    (h : ¬ wrap (g.ball.move_counter + 1) ≥ BALL_SPEED) :
    (update_game g c).ball =
      { g.ball with move_counter := wrap (g.ball.move_counter + 1) } ∧
    (update_game g c).left_score = g.left_score ∧
    (update_game g c).right_score = g.right_score := by
  rw [machine_update_game_closed g c h, machine_racket_movement_ball,
    (machine_racket_movement_scores _ _).1, (machine_racket_movement_scores _ _).2]
  exact ⟨rfl, rfl, rfl⟩

/-- The ball of a tick whose gate opens, field by field. -/
theorem machine_update_game_open_ball (g : GameState) (c : Char)
    (h : wrap (g.ball.move_counter + 1) ≥ BALL_SPEED) :
    (update_game g c).ball.speed_y =
      (if wrap (g.ball.y + g.ball.speed_y) ≤ 1 ∨
          wrap (g.ball.y + g.ball.speed_y) ≥ MAX_Y - 1 then
        wrap (-g.ball.speed_y) else g.ball.speed_y) ∧
    (update_game g c).ball.speed_x =
      (if (wrap (g.ball.x + g.ball.speed_x) = wrap (g.left_racket.x + 1) ∧
            wrap (g.ball.y + g.ball.speed_y) ≥ g.left_racket.start ∧
            wrap (g.ball.y + g.ball.speed_y) ≤ g.left_racket.end_) ∨
          (wrap (g.ball.x + g.ball.speed_x) = wrap (g.right_racket.x - 1) ∧
            wrap (g.ball.y + g.ball.speed_y) ≥ g.right_racket.start ∧
            wrap (g.ball.y + g.ball.speed_y) ≤ g.right_racket.end_) then
        wrap (-g.ball.speed_x)
        else g.ball.speed_x) ∧
    (update_game g c).ball.move_counter = 0 ∧
    (update_game g c).ball.x =
      (if wrap (g.ball.x + g.ball.speed_x) ≤ 1 ∨ wrap (g.ball.x + g.ball.speed_x) ≥ MAX_X - 1
        then MAX_X / 2 else wrap (g.ball.x + g.ball.speed_x)) ∧
    (update_game g c).ball.y =
      (if wrap (g.ball.x + g.ball.speed_x) ≤ 1 ∨ wrap (g.ball.x + g.ball.speed_x) ≥ MAX_X - 1
        then MAX_Y / 2 else wrap (g.ball.y + g.ball.speed_y)) := by
  rw [machine_update_game_open g c h, machine_racket_movement_ball,
    (machine_scoring_speed _).1, (machine_scoring_speed _).2.1, (machine_scoring_speed _).2.2,
    (machine_scoring_fields _).1, (machine_scoring_fields _).2.1, machine_before_scoring]
  exact ⟨rfl, rfl, rfl, rfl, rfl⟩

/-- The scores of a tick whose gate opens. -/
theorem machine_update_game_open_scores (g : GameState) (c : Char)
    (h : wrap (g.ball.move_counter + 1) ≥ BALL_SPEED) :
    (update_game g c).right_score =
      (if wrap (g.ball.x + g.ball.speed_x) ≤ 1 then wrap (g.right_score + 1)
        else g.right_score) ∧
    (update_game g c).left_score =
      (if ¬ wrap (g.ball.x + g.ball.speed_x) ≤ 1 ∧
          wrap (g.ball.x + g.ball.speed_x) ≥ MAX_X - 1 then
        wrap (g.left_score + 1) else g.left_score) := by
  rw [machine_update_game_open g c h, (machine_racket_movement_scores _ _).1,
    (machine_racket_movement_scores _ _).2, (machine_scoring_fields _).2.2.1,
    (machine_scoring_fields _).2.2.2, machine_before_scoring]
  exact ⟨rfl, rfl⟩

end Pong3.Machine

namespace Pong2.Machine

open MachineInt

/-! ## The rackets of `pong2.c` on `int` -/

theorem machine2_racket_movement_left (g : GameState) (c : Char) :
    (racket_movement g c).left_racket =
      if c = 'a' ∧ g.left_racket.start > 1 then
        { g.left_racket with
          start := wrap (g.left_racket.start - 1), end_ := wrap (g.left_racket.end_ - 1) }
      else if c = 'z' ∧ g.left_racket.end_ < MAX_Y - 2 then
        { g.left_racket with
          start := wrap (g.left_racket.start + 1), end_ := wrap (g.left_racket.end_ + 1) }
      else g.left_racket := by
  unfold racket_movement; split_ifs <;> simp_all

theorem machine2_racket_movement_right (g : GameState) (c : Char) :
    (racket_movement g c).right_racket =
      if c = 'k' ∧ g.right_racket.start > 1 then
        { g.right_racket with
          start := wrap (g.right_racket.start - 1), end_ := wrap (g.right_racket.end_ - 1) }
      else if c = 'm' ∧ g.right_racket.end_ < MAX_Y - 2 then
        { g.right_racket with
          start := wrap (g.right_racket.start + 1), end_ := wrap (g.right_racket.end_ + 1) }
      else g.right_racket := by
  unfold racket_movement; split_ifs <;> simp_all

theorem machine2_scoring_rackets (g : GameState) :
    (scoring g).left_racket = g.left_racket ∧ (scoring g).right_racket = g.right_racket := by
  unfold scoring; split_ifs <;> exact ⟨rfl, rfl⟩

theorem machine2_collision_rackets_rackets (g : GameState) :
    (collision_rackets g).left_racket = g.left_racket ∧
    (collision_rackets g).right_racket = g.right_racket := by
  unfold collision_rackets; split_ifs <;> exact ⟨rfl, rfl⟩

theorem machine2_collision_top_bottom_rackets (g : GameState) :
    (collision_top_bottom g).left_racket = g.left_racket ∧
    (collision_top_bottom g).right_racket = g.right_racket := by
  unfold collision_top_bottom; split_ifs <;> exact ⟨rfl, rfl⟩

/-- The ball blocks of `pong2.c` leave the rackets alone. -/
theorem machine2_ball_blocks_rackets (g : GameState) :
    (scoring (collision_rackets (collision_top_bottom (ball_position g)))).left_racket =
      g.left_racket ∧
    (scoring (collision_rackets (collision_top_bottom (ball_position g)))).right_racket =
      g.right_racket := by
  rw [(machine2_scoring_rackets _).1, (machine2_scoring_rackets _).2,
    (machine2_collision_rackets_rackets _).1, (machine2_collision_rackets_rackets _).2,
    (machine2_collision_top_bottom_rackets _).1, (machine2_collision_top_bottom_rackets _).2]
  exact ⟨rfl, rfl⟩

theorem machine2_update_game_left_racket (g : GameState) (c : Char) :
    (update_game g c).left_racket =
      if c = 'a' ∧ g.left_racket.start > 1 then
        { g.left_racket with
          start := wrap (g.left_racket.start - 1), end_ := wrap (g.left_racket.end_ - 1) }
      else if c = 'z' ∧ g.left_racket.end_ < MAX_Y - 2 then
        { g.left_racket with
          start := wrap (g.left_racket.start + 1), end_ := wrap (g.left_racket.end_ + 1) }
      else g.left_racket := by
  unfold update_game
  rw [machine2_racket_movement_left, (machine2_ball_blocks_rackets g).1]

theorem machine2_update_game_right_racket (g : GameState) (c : Char) :
    (update_game g c).right_racket =
      if c = 'k' ∧ g.right_racket.start > 1 then
        { g.right_racket with
          start := wrap (g.right_racket.start - 1), end_ := wrap (g.right_racket.end_ - 1) }
      else if c = 'm' ∧ g.right_racket.end_ < MAX_Y - 2 then
        { g.right_racket with
          start := wrap (g.right_racket.start + 1), end_ := wrap (g.right_racket.end_ + 1) }
      else g.right_racket := by
  unfold update_game
  rw [machine2_racket_movement_right, (machine2_ball_blocks_rackets g).2]

end Pong2.Machine

namespace Pong3.Machine

open MachineInt

/-! ## Racket translation on `int` -/

/-- A translated bound keeps its distance to the other one when neither `--` nor `++`
overflows. -/
theorem translated_length (start end_ : Int) (h : translation_in_range start end_) :
    (start > 1 → wrap (end_ - 1) - wrap (start - 1) = end_ - start) ∧
    (end_ < 23 → wrap (end_ + 1) - wrap (start + 1) = end_ - start) := by
  obtain ⟨⟨a1, a2⟩, ⟨b1, b2⟩, hup, hdown⟩ := h
  unfold INT_MIN INT_MAX at *
  constructor
  · intro hs
    have := hup hs
    rw [wrap_of_is_int (end_ - 1) (by unfold is_int INT_MIN INT_MAX; omega),
      wrap_of_is_int (start - 1) (by unfold is_int INT_MIN INT_MAX; omega)]
    omega
  · intro he
    have := hdown he
    rw [wrap_of_is_int (end_ + 1) (by unfold is_int INT_MIN INT_MAX; omega),
      wrap_of_is_int (start + 1) (by unfold is_int INT_MIN INT_MAX; omega)]
    omega

/-- Counterexample of C6: the left racket with `start = 2`, `end = INT_MIN` and the
input `a`: `start--` gives 1, `end--` overflows to `INT_MAX`, and `end - start` is
not what it was, in `pong3.c` and in `pong2.c`. -/
theorem machine_racket_length_overflow :
    (update_game racket_at_int_min 'a').left_racket = ⟨1, INT_MAX, 3⟩ ∧
    ¬ ((update_game racket_at_int_min 'a').left_racket.end_ -
        (update_game racket_at_int_min 'a').left_racket.start =
      racket_at_int_min.left_racket.end_ - racket_at_int_min.left_racket.start) ∧
    ¬ ((Pong2.Machine.update_game Pong2.Machine.racket_at_int_min 'a').left_racket.end_ -
        (Pong2.Machine.update_game Pong2.Machine.racket_at_int_min 'a').left_racket.start =
      Pong2.Machine.racket_at_int_min.left_racket.end_ -
        Pong2.Machine.racket_at_int_min.left_racket.start) := by
  decide

/-- C6 as amended: for every `GameState` whose racket bounds are `int`s on which no
translation can overflow (`end > INT_MIN` where `start > 1`, `start < INT_MAX` where
`end < MAX_Y - 2`; so whenever `start ≤ end`) and every input, `update_game` keeps
the length `end - start` of the left racket and of the right racket, in `pong3.c`
and in `pong2.c`. -/
theorem machine_racket_length (game : GameState) (game2 : Pong2.GameState) (input : Char)
    (hl : translation_in_range game.left_racket.start game.left_racket.end_)
    (hr : translation_in_range game.right_racket.start game.right_racket.end_)
    (hl2 : translation_in_range game2.left_racket.start game2.left_racket.end_)
    (hr2 : translation_in_range game2.right_racket.start game2.right_racket.end_) :
    ((update_game game input).left_racket.end_ - (update_game game input).left_racket.start =
        game.left_racket.end_ - game.left_racket.start ∧
      (update_game game input).right_racket.end_ -
          (update_game game input).right_racket.start =
        game.right_racket.end_ - game.right_racket.start) ∧
    ((Pong2.Machine.update_game game2 input).left_racket.end_ -
          (Pong2.Machine.update_game game2 input).left_racket.start =
        game2.left_racket.end_ - game2.left_racket.start ∧
      (Pong2.Machine.update_game game2 input).right_racket.end_ -
          (Pong2.Machine.update_game game2 input).right_racket.start =
        game2.right_racket.end_ - game2.right_racket.start) := by
  have a := translated_length _ _ hl
  have b := translated_length _ _ hr
  have a2 := translated_length _ _ hl2
  have b2 := translated_length _ _ hr2
  rw [machine_update_game_left_racket, machine_update_game_right_racket,
    Pong2.Machine.machine2_update_game_left_racket,
    Pong2.Machine.machine2_update_game_right_racket]
  simp only [MAX_Y, Pong2.MAX_Y] at *
  refine ⟨⟨?_, ?_⟩, ?_, ?_⟩
  · split_ifs with h1 h2
    · exact a.1 h1.2
    · exact a.2 (by omega)
    · rfl
  · split_ifs with h1 h2
    · exact b.1 h1.2
    · exact b.2 (by omega)
    · rfl
  · split_ifs with h1 h2
    · exact a2.1 h1.2
    · exact a2.2 (by omega)
    · rfl
  · split_ifs with h1 h2
    · exact b2.1 h1.2
    · exact b2.2 (by omega)
    · rfl

/-- Witness of the amended C6: the rackets `[10,14]` of `init_game` in `pong3.c` and
`[5,7]`, `[17,19]` in `pong2.c`, input `z`. -/
theorem machine_racket_length_witness :
    ((update_game (init_game blank) 'z').left_racket.end_ -
          (update_game (init_game blank) 'z').left_racket.start = 14 - 10 ∧
      (update_game (init_game blank) 'z').right_racket.end_ -
          (update_game (init_game blank) 'z').right_racket.start = 14 - 10) ∧
    ((Pong2.Machine.update_game
          (Pong2.init_game ⟨⟨0, 0, 0, 0⟩, ⟨0, 0, 0⟩, ⟨0, 0, 0⟩, 0, 0⟩) 'z').left_racket.end_ -
        (Pong2.Machine.update_game
          (Pong2.init_game ⟨⟨0, 0, 0, 0⟩, ⟨0, 0, 0⟩, ⟨0, 0, 0⟩, 0, 0⟩) 'z').left_racket.start =
        7 - 5 ∧
      (Pong2.Machine.update_game
          (Pong2.init_game ⟨⟨0, 0, 0, 0⟩, ⟨0, 0, 0⟩, ⟨0, 0, 0⟩, 0, 0⟩) 'z').right_racket.end_ -
        (Pong2.Machine.update_game
          (Pong2.init_game ⟨⟨0, 0, 0, 0⟩, ⟨0, 0, 0⟩, ⟨0, 0, 0⟩, 0, 0⟩) 'z').right_racket.start =
        19 - 17) :=
  machine_racket_length (init_game blank)
    (Pong2.init_game ⟨⟨0, 0, 0, 0⟩, ⟨0, 0, 0⟩, ⟨0, 0, 0⟩, 0, 0⟩) 'z'
    (by decide) (by decide) (by decide) (by decide)


/-- Counterexample of C16: `a` with left `start = 2 > 1` and `end = INT_MIN`: the
start goes down by 1 but `end--` overflows to `INT_MAX`, not `end - 1`. -/
theorem machine_translation_overflow :
    racket_at_int_min.left_racket.start > 1 ∧
    (update_game racket_at_int_min 'a').left_racket.end_ = INT_MAX ∧
    ¬ ((update_game racket_at_int_min 'a').left_racket.start =
        racket_at_int_min.left_racket.start - 1 ∧
      (update_game racket_at_int_min 'a').left_racket.end_ =
        racket_at_int_min.left_racket.end_ - 1) := by
  decide

/-- C16 as amended: for every `GameState` whose racket bounds are `int`s, gate open
or closed: `a` with left start > 1 and left end > `INT_MIN` lowers left start and end
by exactly 1, `z` with left end < `MAX_Y - 2` and left start < `INT_MAX` raises both
by exactly 1, `k` and `m` do the same to the right racket; and the rackets after a
tick are a function of the input and of the rackets before it only. -/
theorem machine_translation (game other : GameState) (input : Char)
    (hl : is_int game.left_racket.start ∧ is_int game.left_racket.end_)
    (hr : is_int game.right_racket.start ∧ is_int game.right_racket.end_) :
    (game.left_racket.start > 1 → game.left_racket.end_ > INT_MIN →
      (update_game game 'a').left_racket.start = game.left_racket.start - 1 ∧
      (update_game game 'a').left_racket.end_ = game.left_racket.end_ - 1) ∧
    (game.left_racket.end_ < MAX_Y - 2 → game.left_racket.start < INT_MAX →
      (update_game game 'z').left_racket.start = game.left_racket.start + 1 ∧
      (update_game game 'z').left_racket.end_ = game.left_racket.end_ + 1) ∧
    (game.right_racket.start > 1 → game.right_racket.end_ > INT_MIN →
      (update_game game 'k').right_racket.start = game.right_racket.start - 1 ∧
      (update_game game 'k').right_racket.end_ = game.right_racket.end_ - 1) ∧
    (game.right_racket.end_ < MAX_Y - 2 → game.right_racket.start < INT_MAX →
      (update_game game 'm').right_racket.start = game.right_racket.start + 1 ∧
      (update_game game 'm').right_racket.end_ = game.right_racket.end_ + 1) ∧
    (other.left_racket = game.left_racket → other.right_racket = game.right_racket →
      (update_game other input).left_racket = (update_game game input).left_racket ∧
      (update_game other input).right_racket = (update_game game input).right_racket) := by
  obtain ⟨⟨a1, a2⟩, b1, b2⟩ := hl
  obtain ⟨⟨c1, c2⟩, d1, d2⟩ := hr
  unfold INT_MIN INT_MAX at *
  refine ⟨?_, ?_, ?_, ?_, ?_⟩
  · intro h hm
    rw [machine_update_game_left_racket, if_pos ⟨rfl, h⟩]
    exact ⟨wrap_of_is_int _ (by unfold is_int INT_MIN INT_MAX; omega),
      wrap_of_is_int _ (by unfold is_int INT_MIN INT_MAX; omega)⟩
  · intro h hm
    have h1 : ¬ ('z' = 'a' ∧ game.left_racket.start > 1) := fun hh => absurd hh.1 (by decide)
    simp only [MAX_Y] at h
    rw [machine_update_game_left_racket, if_neg h1, if_pos ⟨rfl, by simp only [MAX_Y]; exact h⟩]
    exact ⟨wrap_of_is_int _ (by unfold is_int INT_MIN INT_MAX; omega),
      wrap_of_is_int _ (by unfold is_int INT_MIN INT_MAX; omega)⟩
  · intro h hm
    rw [machine_update_game_right_racket, if_pos ⟨rfl, h⟩]
    exact ⟨wrap_of_is_int _ (by unfold is_int INT_MIN INT_MAX; omega),
      wrap_of_is_int _ (by unfold is_int INT_MIN INT_MAX; omega)⟩
  · intro h hm
    have h1 : ¬ ('m' = 'k' ∧ game.right_racket.start > 1) := fun hh => absurd hh.1 (by decide)
    simp only [MAX_Y] at h
    rw [machine_update_game_right_racket, if_neg h1,
      if_pos ⟨rfl, by simp only [MAX_Y]; exact h⟩]
    exact ⟨wrap_of_is_int _ (by unfold is_int INT_MIN INT_MAX; omega),
      wrap_of_is_int _ (by unfold is_int INT_MIN INT_MAX; omega)⟩
  · intro e1 e2
    rw [machine_update_game_left_racket, machine_update_game_right_racket,
      machine_update_game_left_racket, machine_update_game_right_racket, e1, e2]
    exact ⟨rfl, rfl⟩

/-- Witness of the amended C16: from the rackets `[10,14]` of `init_game`, `a` gives
the left racket `[9,13]` with the gate closed (counter 0) and with the gate open
(counter 4), and `m` gives the right racket `[11,15]`. -/
theorem machine_translation_witness :
    ((update_game (init_game blank) 'a').left_racket.start = 10 - 1 ∧
      (update_game (init_game blank) 'a').left_racket.end_ = 14 - 1) ∧
    ((update_game (ball_scenario 40 12 1 1) 'a').left_racket.start = 10 - 1 ∧
      (update_game (ball_scenario 40 12 1 1) 'a').left_racket.end_ = 14 - 1) ∧
    ((update_game (init_game blank) 'm').right_racket.start = 10 + 1 ∧
      (update_game (init_game blank) 'm').right_racket.end_ = 14 + 1) :=
  ⟨(machine_translation (init_game blank) blank 'a' (by decide) (by decide)).1
      (by decide) (by decide),
    (machine_translation (ball_scenario 40 12 1 1) blank 'a' (by decide) (by decide)).1
      (by decide) (by decide),
    (machine_translation (init_game blank) blank 'm' (by decide) (by decide)).2.2.2.1
      (by decide) (by decide)⟩


/-! ## The ball update of a tick whose gate opens, on `int` -/

/-- Counterexample of C8: with `right_score = INT_MAX` the tick of scenario 1 leaves
`right_score = INT_MIN`, not `right_score + 1`; and with the right racket `[10,14]`
on column 2 the ball of scenario 1 arrives at (1,12), bounces (`speed_x` becomes 1)
and scores in the same tick. -/
theorem machine_left_edge_overflow :
    (update_game right_score_at_int_max 'x').right_score = INT_MIN ∧
    ¬ ((update_game right_score_at_int_max 'x').right_score =
        right_score_at_int_max.right_score + 1) ∧
    (update_game right_racket_on_column_2 'x').right_score =
        right_racket_on_column_2.right_score + 1 ∧
    (update_game right_racket_on_column_2 'x').ball.speed_x = 1 ∧
    ¬ ((update_game right_racket_on_column_2 'x').ball.speed_x =
        right_racket_on_column_2.ball.speed_x) := by
  decide

/-- C8 as amended: on a tick whose gate opens and whose moved ball has `x ≤ 1`, with
`right_score` an `int` below `INT_MAX`, `right_score` grows by exactly 1,
`left_score` is unchanged, the ball is put back at the centre
`(MAX_X / 2, MAX_Y / 2) = (40, 12)` and the scoring block does not touch `speed_x`;
in particular a ball at (2,12) with velocity (-1,0), the left racket `[10,14]` on
column 3 and the right racket on an `int` column other than 2 scores for the right
side and keeps `speed_x = -1`. -/
theorem machine_left_edge_scores (game : GameState) (input : Char)
    (hgate : wrap (game.ball.move_counter + 1) ≥ BALL_SPEED)
    (hx : wrap (game.ball.x + game.ball.speed_x) ≤ 1)
    (hs : is_int game.right_score) (hmax : game.right_score < INT_MAX) :
    (update_game game input).right_score = game.right_score + 1 ∧
    (update_game game input).left_score = game.left_score ∧
    (update_game game input).ball.x = MAX_X / 2 ∧
    (update_game game input).ball.y = MAX_Y / 2 ∧
    (MAX_X / 2 = 40 ∧ MAX_Y / 2 = 12) ∧
    (update_game game input).ball.speed_x =
      (collision_rackets (collision_top_bottom (ball_position
        { game with ball :=
          { game.ball with
            move_counter := wrap (game.ball.move_counter + 1) } }))).ball.speed_x ∧
    (game.ball.x = 2 → game.ball.y = 12 → game.ball.speed_x = -1 → game.ball.speed_y = 0 →
      game.left_racket = ⟨10, 14, 3⟩ → is_int game.right_racket.x →
      game.right_racket.x ≠ 2 →
      (update_game game input).ball.speed_x = game.ball.speed_x) := by
  obtain ⟨hr, hl⟩ := machine_update_game_open_scores game input hgate
  obtain ⟨_, hsx, _, hbx, hby⟩ := machine_update_game_open_ball game input hgate
  have hw : wrap (game.right_score + 1) = game.right_score + 1 := by
    apply wrap_of_is_int
    unfold is_int INT_MIN INT_MAX at *
    omega
  refine ⟨?_, ?_, ?_, ?_, ⟨rfl, rfl⟩, ?_, ?_⟩
  · rw [hr, if_pos hx, hw]
  · rw [hl, if_neg (fun hh => hh.1 hx)]
  · rw [hbx, if_pos (Or.inl hx)]
  · rw [hby, if_pos (Or.inl hx)]
  · rw [hsx, machine_before_scoring]
  · intro h2 h12 hsx' hsy hleft hri hright
    rw [hsx, h2, h12, hsx', hsy, hleft]
    have hne : ¬ ((wrap (2 + -1) = wrap ((3 : Int) + 1) ∧ wrap (12 + 0) ≥ (10 : Int) ∧
          wrap (12 + 0) ≤ (14 : Int)) ∨
        (wrap (2 + -1) = wrap (game.right_racket.x - 1) ∧
          wrap (12 + 0) ≥ game.right_racket.start ∧
          wrap (12 + 0) ≤ game.right_racket.end_)) := by
      have e1 : wrap (2 + -1) = 1 := by decide
      have e2 : wrap ((3 : Int) + 1) = 4 := by decide
      rw [e1, e2]
      rintro (h | h)
      · exact absurd h.1 (by decide)
      · have := h.1
        unfold is_int INT_MIN INT_MAX at hri
        unfold wrap at this
        omega
    rw [if_neg hne]

/-- Witness of the amended C8: scenario 1 in the state of `init_game`: the right side
scores, the ball returns to (40,12) and `speed_x` is still -1. -/
theorem machine_left_edge_scores_witness :
    (update_game (ball_scenario 2 12 (-1) 0) (Char.ofNat 0)).right_score = 0 + 1 ∧
    (update_game (ball_scenario 2 12 (-1) 0) (Char.ofNat 0)).left_score = 0 ∧
    (update_game (ball_scenario 2 12 (-1) 0) (Char.ofNat 0)).ball.x = 40 ∧
    (update_game (ball_scenario 2 12 (-1) 0) (Char.ofNat 0)).ball.y = 12 ∧
    (update_game (ball_scenario 2 12 (-1) 0) (Char.ofNat 0)).ball.speed_x = -1 :=
  have h := machine_left_edge_scores (ball_scenario 2 12 (-1) 0) (Char.ofNat 0)
    (by decide) (by decide) (by decide) (by decide)
  ⟨h.1, h.2.1, h.2.2.1, h.2.2.2.1,
    h.2.2.2.2.2.2 (by decide) (by decide) (by decide) (by decide) (by decide) (by decide)
      (by decide)⟩

/-- Counterexample of C9: the ball at (78,12) with velocity (1,1) reaches column 79
with `left_score = INT_MAX`: the tick leaves `left_score = INT_MIN`, not
`left_score + 1`. -/
theorem machine_right_edge_overflow :
    wrap (left_score_at_int_max.ball.move_counter + 1) ≥ BALL_SPEED ∧
    wrap (left_score_at_int_max.ball.x + left_score_at_int_max.ball.speed_x) = 79 ∧
    (update_game left_score_at_int_max 'x').left_score = INT_MIN ∧
    ¬ ((update_game left_score_at_int_max 'x').left_score =
        left_score_at_int_max.left_score + 1) := by
  decide

/-- C9 as amended: on a tick whose gate opens, if the moved ball has `x > 1` and
`x ≥ MAX_X - 1 = 79` and `left_score` is an `int` below `INT_MAX`, then `left_score`
grows by exactly 1, `right_score` is unchanged and the ball is put back at the centre
(40,12); if the moved `x` is strictly between 1 and `MAX_X - 1` neither score changes
and the ball stays where the move put it. -/
theorem machine_right_edge_scores (game : GameState) (input : Char)
    (hgate : wrap (game.ball.move_counter + 1) ≥ BALL_SPEED) :
    MAX_X - 1 = 79 ∧
    (wrap (game.ball.x + game.ball.speed_x) > 1 →
      wrap (game.ball.x + game.ball.speed_x) ≥ MAX_X - 1 →
      is_int game.left_score → game.left_score < INT_MAX →
      (update_game game input).left_score = game.left_score + 1 ∧
      (update_game game input).right_score = game.right_score ∧
      (update_game game input).ball.x = 40 ∧ (update_game game input).ball.y = 12) ∧
    (1 < wrap (game.ball.x + game.ball.speed_x) →
      wrap (game.ball.x + game.ball.speed_x) < MAX_X - 1 →
      (update_game game input).left_score = game.left_score ∧
      (update_game game input).right_score = game.right_score ∧
      (update_game game input).ball.x = wrap (game.ball.x + game.ball.speed_x) ∧
      (update_game game input).ball.y = wrap (game.ball.y + game.ball.speed_y)) := by
  obtain ⟨hr, hl⟩ := machine_update_game_open_scores game input hgate
  obtain ⟨_, _, _, hbx, hby⟩ := machine_update_game_open_ball game input hgate
  refine ⟨rfl, ?_, ?_⟩
  · intro h1 h2 hs hmax
    have hw : wrap (game.left_score + 1) = game.left_score + 1 := by
      apply wrap_of_is_int
      unfold is_int INT_MIN INT_MAX at *
      omega
    rw [hr, hl, hbx, hby, if_neg (not_le.mpr h1), if_pos ⟨not_le.mpr h1, h2⟩,
      if_pos (Or.inr h2), if_pos (Or.inr h2), hw]
    exact ⟨rfl, rfl, rfl, rfl⟩
  · intro h1 h2
    have hn : ¬ (wrap (game.ball.x + game.ball.speed_x) ≤ 1 ∨
        wrap (game.ball.x + game.ball.speed_x) ≥ MAX_X - 1) :=
      fun hh => hh.elim (fun a => absurd a (not_le.mpr h1)) (fun a => absurd a (not_le.mpr h2))
    rw [hr, hl, hbx, hby, if_neg (not_le.mpr h1),
      if_neg (fun hh => absurd hh.2 (not_le.mpr h2)), if_neg hn, if_neg hn]
    exact ⟨rfl, rfl, rfl, rfl⟩

/-- Witness of the amended C9: the ball at (78,12) with velocity (1,1) reaches column
79 and the left side scores; the ball at (40,12) moves to (41,13) and no score
changes. -/
theorem machine_right_edge_scores_witness :
    ((update_game (ball_scenario 78 12 1 1) 'a').left_score = 0 + 1 ∧
      (update_game (ball_scenario 78 12 1 1) 'a').right_score = 0 ∧
      (update_game (ball_scenario 78 12 1 1) 'a').ball.x = 40 ∧
      (update_game (ball_scenario 78 12 1 1) 'a').ball.y = 12) ∧
    ((update_game (ball_scenario 40 12 1 1) 'a').left_score = 0 ∧
      (update_game (ball_scenario 40 12 1 1) 'a').right_score = 0 ∧
      (update_game (ball_scenario 40 12 1 1) 'a').ball.x = wrap (40 + 1) ∧
      (update_game (ball_scenario 40 12 1 1) 'a').ball.y = wrap (12 + 1)) :=
  ⟨(machine_right_edge_scores (ball_scenario 78 12 1 1) 'a' (by decide)).2.1
      (by decide) (by decide) (by decide) (by decide),
   (machine_right_edge_scores (ball_scenario 40 12 1 1) 'a' (by decide)).2.2
      (by decide) (by decide)⟩


/-- Counterexample of C10: `speed_x = INT_MIN` (not 0), the gate opens and the moved
ball is at (4,12) beside the left racket `[10,14]` of column 3, so the collision test
holds; `-speed_x` overflows and `speed_x` is left at `INT_MIN`, not negated. -/
theorem machine_speed_x_overflow :
    (ball_scenario (INT_MIN + 4) 12 INT_MIN 0).ball.speed_x ≠ 0 ∧
    wrap ((ball_scenario (INT_MIN + 4) 12 INT_MIN 0).ball.move_counter + 1) ≥ BALL_SPEED ∧
    wrap ((ball_scenario (INT_MIN + 4) 12 INT_MIN 0).ball.x +
      (ball_scenario (INT_MIN + 4) 12 INT_MIN 0).ball.speed_x) =
        (ball_scenario (INT_MIN + 4) 12 INT_MIN 0).left_racket.x + 1 ∧
    (update_game (ball_scenario (INT_MIN + 4) 12 INT_MIN 0) 'x').ball.speed_x = INT_MIN ∧
    ¬ ((update_game (ball_scenario (INT_MIN + 4) 12 INT_MIN 0) 'x').ball.speed_x =
        -(ball_scenario (INT_MIN + 4) 12 INT_MIN 0).ball.speed_x) := by
  decide

/-- C10 as amended: on a tick whose gate opens, with `speed_x ≠ 0` an `int` above
`INT_MIN`, `speed_x` is negated exactly when the moved ball is on column
`left_racket.x + 1` within the left racket's span or on column `right_racket.x - 1`
within the right racket's span (columns and moved position as the code computes
them, spans as before this tick's racket movement); otherwise `speed_x` is
unchanged. -/
theorem machine_speed_x (game : GameState) (input : Char)
    (hs : game.ball.speed_x ≠ 0)
    (hi : is_int game.ball.speed_x) (hmin : game.ball.speed_x > INT_MIN)
    (hgate : wrap (game.ball.move_counter + 1) ≥ BALL_SPEED) :
    ((update_game game input).ball.speed_x = -game.ball.speed_x ↔
      ((wrap (game.ball.x + game.ball.speed_x) = wrap (game.left_racket.x + 1) ∧
          game.left_racket.start ≤ wrap (game.ball.y + game.ball.speed_y) ∧
          wrap (game.ball.y + game.ball.speed_y) ≤ game.left_racket.end_) ∨
       (wrap (game.ball.x + game.ball.speed_x) = wrap (game.right_racket.x - 1) ∧
          game.right_racket.start ≤ wrap (game.ball.y + game.ball.speed_y) ∧
          wrap (game.ball.y + game.ball.speed_y) ≤ game.right_racket.end_))) ∧
    (¬ ((wrap (game.ball.x + game.ball.speed_x) = wrap (game.left_racket.x + 1) ∧
          game.left_racket.start ≤ wrap (game.ball.y + game.ball.speed_y) ∧
          wrap (game.ball.y + game.ball.speed_y) ≤ game.left_racket.end_) ∨
        (wrap (game.ball.x + game.ball.speed_x) = wrap (game.right_racket.x - 1) ∧
          game.right_racket.start ≤ wrap (game.ball.y + game.ball.speed_y) ∧
          wrap (game.ball.y + game.ball.speed_y) ≤ game.right_racket.end_)) →
      (update_game game input).ball.speed_x = game.ball.speed_x) := by
  have hw : wrap (-game.ball.speed_x) = -game.ball.speed_x := by
    apply wrap_of_is_int
    unfold is_int INT_MIN INT_MAX at *
    omega
  rw [(machine_update_game_open_ball game input hgate).2.1, hw]
  simp only [ge_iff_le]
  constructor
  · constructor
    · intro h
      by_contra hn
      rw [if_neg hn] at h
      omega
    · intro h
      rw [if_pos h]
  · intro hn
    rw [if_neg hn]

/-- Witness of the amended C10: the ball at (5,12) with velocity (-1,1) arrives at
(4,13), next to the left racket `[10,14]` of column 3, and `speed_x` becomes 1. -/
theorem machine_speed_x_witness :
    (update_game (ball_scenario 5 12 (-1) 1) 'z').ball.speed_x = - -1 :=
  (machine_speed_x (ball_scenario 5 12 (-1) 1) 'z' (by decide) (by decide) (by decide)
    (by decide)).1.mpr (by decide)

/-- Counterexample of C11: `speed_y = INT_MIN`, the gate opens and the moved ball has
`y = INT_MIN + 2 ≤ 1`; `-speed_y` overflows and `speed_y` is left at `INT_MIN`, not
negated. -/
theorem machine_speed_y_overflow :
    wrap ((ball_scenario 40 2 1 INT_MIN).ball.move_counter + 1) ≥ BALL_SPEED ∧
    wrap ((ball_scenario 40 2 1 INT_MIN).ball.y + (ball_scenario 40 2 1 INT_MIN).ball.speed_y)
      ≤ 1 ∧
    (update_game (ball_scenario 40 2 1 INT_MIN) 'x').ball.speed_y = INT_MIN ∧
    ¬ ((update_game (ball_scenario 40 2 1 INT_MIN) 'x').ball.speed_y =
        -(ball_scenario 40 2 1 INT_MIN).ball.speed_y) := by
  decide

/-- C11 as amended: on a tick whose gate opens, with `speed_y` an `int` above
`INT_MIN`, if the moved ball has `y ≤ 1` or `y ≥ MAX_Y - 1 = 24` then `speed_y` after
the tick is the negation of `speed_y` before it, with the same magnitude; otherwise
`speed_y` is unchanged; `y` is not clamped: it is the moved `y` (or the centre row
when the tick scores). -/
theorem machine_speed_y (game : GameState) (input : Char)
    (hi : is_int game.ball.speed_y) (hmin : game.ball.speed_y > INT_MIN)
    (hgate : wrap (game.ball.move_counter + 1) ≥ BALL_SPEED) :
    MAX_Y - 1 = 24 ∧
    (wrap (game.ball.y + game.ball.speed_y) ≤ 1 ∨
        wrap (game.ball.y + game.ball.speed_y) ≥ MAX_Y - 1 →
      (update_game game input).ball.speed_y = -game.ball.speed_y ∧
      (update_game game input).ball.speed_y.natAbs = game.ball.speed_y.natAbs) ∧
    (¬ (wrap (game.ball.y + game.ball.speed_y) ≤ 1 ∨
        wrap (game.ball.y + game.ball.speed_y) ≥ MAX_Y - 1) →
      (update_game game input).ball.speed_y = game.ball.speed_y) ∧
    (update_game game input).ball.y =
      (if wrap (game.ball.x + game.ball.speed_x) ≤ 1 ∨
          wrap (game.ball.x + game.ball.speed_x) ≥ MAX_X - 1
        then MAX_Y / 2 else wrap (game.ball.y + game.ball.speed_y)) := by
  have hw : wrap (-game.ball.speed_y) = -game.ball.speed_y := by
    apply wrap_of_is_int
    unfold is_int INT_MIN INT_MAX at *
    omega
  obtain ⟨hy, _, _, _, hpos⟩ := machine_update_game_open_ball game input hgate
  refine ⟨rfl, ?_, ?_, hpos⟩
  · intro h
    rw [hy, if_pos h, hw]
    exact ⟨rfl, Int.natAbs_neg _⟩
  · intro h
    rw [hy, if_neg h]

/-- Witness of the amended C11: the ball at (40,23) with velocity (1,1) moves to row
24 and `speed_y` becomes -1, `y` staying 24. -/
theorem machine_speed_y_witness :
    (update_game (ball_scenario 40 23 1 1) 'm').ball.speed_y = -1 ∧
    (update_game (ball_scenario 40 23 1 1) 'm').ball.y = 24 :=
  have h := machine_speed_y (ball_scenario 40 23 1 1) 'm' (by decide) (by decide) (by decide)
  ⟨(h.2.1 (by decide)).1, h.2.2.2⟩

/-! ## Scores along a run, on `int` -/

/-- The scores after one tick: each is kept or incremented modulo `2 ^ 32`, and at
most one is incremented. -/
theorem machine_scores_cases (g : GameState) (c : Char) :
    ((update_game g c).left_score = g.left_score ∧
      (update_game g c).right_score = g.right_score) ∨
    ((update_game g c).left_score = wrap (g.left_score + 1) ∧
      (update_game g c).right_score = g.right_score) ∨
    ((update_game g c).left_score = g.left_score ∧
      (update_game g c).right_score = wrap (g.right_score + 1)) := by
  by_cases hg : wrap (g.ball.move_counter + 1) ≥ BALL_SPEED
  · obtain ⟨hr, hl⟩ := machine_update_game_open_scores g c hg
    rw [hr, hl]
    by_cases h1 : wrap (g.ball.x + g.ball.speed_x) ≤ 1
    · rw [if_pos h1, if_neg (fun hh => hh.1 h1)]
      exact Or.inr (Or.inr ⟨rfl, rfl⟩)
    · rw [if_neg h1]
      by_cases h2 : wrap (g.ball.x + g.ball.speed_x) ≥ MAX_X - 1
      · rw [if_pos ⟨h1, h2⟩]
        exact Or.inr (Or.inl ⟨rfl, rfl⟩)
      · rw [if_neg (fun hh => h2 hh.2)]
        exact Or.inl ⟨rfl, rfl⟩
  · obtain ⟨_, hl, hr⟩ := machine_update_game_closed_fields g c hg
    exact Or.inl ⟨hl, hr⟩

/-- After `n` ticks from a state with scores between 0 and `k`, the scores are
between 0 and `k + n`, as long as that stays below `2 ^ 31`. -/
theorem machine_foldl_scores (l : List Char) (s : GameState) (k : Nat)
    (hl : 0 ≤ s.left_score ∧ s.left_score ≤ k) (hr : 0 ≤ s.right_score ∧ s.right_score ≤ k)
    (hk : k + l.length < 2147483648) :
    (0 ≤ (l.foldl update_game s).left_score ∧
      (l.foldl update_game s).left_score ≤ k + l.length) ∧
    (0 ≤ (l.foldl update_game s).right_score ∧
      (l.foldl update_game s).right_score ≤ k + l.length) := by
  induction l generalizing s k with
  | nil => simpa using ⟨hl, hr⟩
  | cons c t ih =>
    rw [List.length_cons] at hk
    have hstep : (0 ≤ (update_game s c).left_score ∧
          (update_game s c).left_score ≤ ((k + 1 : Nat) : Int)) ∧
        (0 ≤ (update_game s c).right_score ∧
          (update_game s c).right_score ≤ ((k + 1 : Nat) : Int)) := by
      have wl : wrap (s.left_score + 1) = s.left_score + 1 := by
        apply wrap_of_is_int
        unfold is_int INT_MIN INT_MAX
        omega
      have wr : wrap (s.right_score + 1) = s.right_score + 1 := by
        apply wrap_of_is_int
        unfold is_int INT_MIN INT_MAX
        omega
      rcases machine_scores_cases s c with ⟨a, b⟩ | ⟨a, b⟩ | ⟨a, b⟩
      · rw [a, b]; push_cast; omega
      · rw [a, b, wl]; push_cast; omega
      · rw [a, b, wr]; push_cast; omega
    have := ih (update_game s c) (k + 1) hstep.1 hstep.2 (by omega)
    rw [List.foldl_cons, List.length_cons]
    push_cast at this ⊢
    omega

/-- Counterexample of C20: the ball at (78,12) with velocity (1,1) reaches column 79
with `left_score = INT_MAX`: the tick takes `left_score` down to `INT_MIN`. -/
theorem machine_scores_decrease :
    (update_game left_score_at_int_max 'x').left_score = INT_MIN ∧
    ¬ (left_score_at_int_max.left_score ≤ (update_game left_score_at_int_max 'x').left_score) := by
  decide

/-- C20 as amended: on a `GameState` whose scores are `int`s below `INT_MAX`, one
tick never decreases `left_score` or `right_score` and raises their sum by at most 1;
and both scores are non-negative after `init_game` and any sequence of fewer than
`2 ^ 31` ticks. -/
theorem machine_scores_monotone (game prior : GameState) (input : Char)
    (inputs : List Char)
    (hl : is_int game.left_score ∧ game.left_score < INT_MAX)
    (hr : is_int game.right_score ∧ game.right_score < INT_MAX)
    (hn : inputs.length < 2147483648) :
    game.left_score ≤ (update_game game input).left_score ∧
    game.right_score ≤ (update_game game input).right_score ∧
    (update_game game input).left_score + (update_game game input).right_score ≤
      game.left_score + game.right_score + 1 ∧
    0 ≤ (run prior inputs).left_score ∧ 0 ≤ (run prior inputs).right_score := by
  obtain ⟨⟨a1, a2⟩, a3⟩ := hl
  obtain ⟨⟨b1, b2⟩, b3⟩ := hr
  have wl : wrap (game.left_score + 1) = game.left_score + 1 := by
    apply wrap_of_is_int
    unfold is_int INT_MIN INT_MAX at *
    omega
  have wr : wrap (game.right_score + 1) = game.right_score + 1 := by
    apply wrap_of_is_int
    unfold is_int INT_MIN INT_MAX at *
    omega
  have hrun := machine_foldl_scores inputs (init_game prior) 0
    ⟨le_refl 0, le_refl 0⟩ ⟨le_refl 0, le_refl 0⟩ (by omega)
  have hcase := machine_scores_cases game input
  rw [wl, wr] at hcase
  refine ⟨?_, ?_, ?_, hrun.1.1, hrun.2.1⟩ <;> omega

/-- Witness of the amended C20: the ball of `init_game`'s scores at (78,12) with
velocity (1,1): the left side scores, 0 becomes 1, and the right score stays 0. -/
theorem machine_scores_monotone_witness :
    (0 : Int) ≤ (update_game (ball_scenario 78 12 1 1) 'x').left_score ∧
    (0 : Int) ≤ (update_game (ball_scenario 78 12 1 1) 'x').right_score ∧
    (update_game (ball_scenario 78 12 1 1) 'x').left_score +
        (update_game (ball_scenario 78 12 1 1) 'x').right_score ≤ 0 + 0 + 1 ∧
    0 ≤ (run blank ['a', 'k', 'z']).left_score ∧ 0 ≤ (run blank ['a', 'k', 'z']).right_score :=
  machine_scores_monotone (ball_scenario 78 12 1 1) blank 'x' ['a', 'k', 'z']
    (by decide) (by decide) (by decide)


/-! ## `pong3.c` against `pong2.c`, on `int` -/

theorem machine_to_pong2_ball_position (g : GameState) :
    to_pong2 (ball_position g) = Pong2.Machine.ball_position (to_pong2 g) := rfl

theorem machine_to_pong2_collision_top_bottom (g : GameState) :
    to_pong2 (collision_top_bottom g) = Pong2.Machine.collision_top_bottom (to_pong2 g) := by
  simp only [collision_top_bottom, Pong2.Machine.collision_top_bottom, to_pong2, MAX_Y,
    Pong2.MAX_Y]
  split_ifs <;> rfl

theorem machine_to_pong2_collision_rackets (g : GameState) :
    to_pong2 (collision_rackets g) = Pong2.Machine.collision_rackets (to_pong2 g) := by
  simp only [collision_rackets, Pong2.Machine.collision_rackets, to_pong2]
  split_ifs <;> rfl

theorem machine_to_pong2_scoring (g : GameState) :
    to_pong2 (scoring g) = Pong2.Machine.scoring (to_pong2 g) := by
  simp only [scoring, Pong2.Machine.scoring, to_pong2, MAX_X, Pong2.MAX_X, MAX_Y, Pong2.MAX_Y]
  split_ifs <;> rfl

theorem machine_to_pong2_racket_movement (g : GameState) (c : Char) :
    to_pong2 (racket_movement g c) = Pong2.Machine.racket_movement (to_pong2 g) c := by
  simp only [racket_movement, Pong2.Machine.racket_movement, to_pong2, MAX_Y, Pong2.MAX_Y]
  split_ifs <;> rfl

/-- Counterexample of C21: with `move_counter = INT_MAX`, `move_counter + 1 ≥
BALL_SPEED` holds of the exact sum, but `move_counter++` overflows to `INT_MIN`, the
gate of `pong3.c` stays closed and the ball stays at (40,12), while `pong2.c` moves
it to (41,13); and `move_counter` is not 0. -/
theorem machine_refines_pong2_overflow :
    counter_at_int_max.ball.move_counter + 1 ≥ BALL_SPEED ∧
    (to_pong2 (update_game counter_at_int_max 'x')).ball = ⟨40, 12, 1, 1⟩ ∧
    (Pong2.Machine.update_game (to_pong2 counter_at_int_max) 'x').ball = ⟨41, 13, 1, 1⟩ ∧
    ¬ (to_pong2 (update_game counter_at_int_max 'x') =
        Pong2.Machine.update_game (to_pong2 counter_at_int_max) 'x') ∧
    ¬ ((update_game counter_at_int_max 'x').ball.move_counter = 0) := by
  decide

/-- C21 as amended: when `move_counter + 1 ≥ BALL_SPEED` and `move_counter` is below
`INT_MAX` (so that the increment does not overflow and the gate opens), for every
input, `update_game` of `pong3.c` gives the ball position, ball velocity, rackets and
scores that `update_game` of `pong2.c` gives on the same fields, and sets
`move_counter` to 0. -/
theorem machine_refines_pong2 (game : GameState) (input : Char)
    (hgate : game.ball.move_counter + 1 ≥ BALL_SPEED)
    (hmax : game.ball.move_counter < INT_MAX) :
    to_pong2 (update_game game input) = Pong2.Machine.update_game (to_pong2 game) input ∧
    (update_game game input).ball.move_counter = 0 := by
  have hw : wrap (game.ball.move_counter + 1) = game.ball.move_counter + 1 := by
    apply wrap_of_is_int
    unfold BALL_SPEED at hgate
    unfold is_int INT_MIN INT_MAX at *
    omega
  have hg : wrap (game.ball.move_counter + 1) ≥ BALL_SPEED := by rw [hw]; exact hgate
  refine ⟨?_, (machine_update_game_open_ball game input hg).2.2.1⟩
  rw [machine_update_game_open game input hg, machine_to_pong2_racket_movement,
    machine_to_pong2_scoring, machine_to_pong2_collision_rackets,
    machine_to_pong2_collision_top_bottom, machine_to_pong2_ball_position]
  rfl

/-- Witness of the amended C21: the ball at (5,12) with velocity (-1,1), counter 4 and
input `k`: both versions bounce off the left racket and move the right racket up. -/
theorem machine_refines_pong2_witness :
    to_pong2 (update_game (ball_scenario 5 12 (-1) 1) 'k') =
      Pong2.Machine.update_game (to_pong2 (ball_scenario 5 12 (-1) 1)) 'k' ∧
    (update_game (ball_scenario 5 12 (-1) 1) 'k').ball.move_counter = 0 :=
  machine_refines_pong2 (ball_scenario 5 12 (-1) 1) 'k' (by decide) (by decide)

end Pong3.Machine

namespace Prime1948.Machine

open MachineInt

/-! ## `1948.c` with `int i`: where the loops agree with exact integers -/

/-- On naturals within `long`, `modulo_with_subtract` on `long` is the exact one. -/
theorem machine_modulo_eq (fuel a b : Nat) (ha : (a : Int) ≤ LONG_MAX) :
    modulo_with_subtract fuel (a : Int) (b : Int) =
      Prime1948.modulo_with_subtract fuel (a : Int) (b : Int) := by
  induction fuel generalizing a with
  | zero => rfl
  | succ n ih =>
    unfold modulo_with_subtract Prime1948.modulo_with_subtract
    by_cases h : b ≤ a
    · have hc : (a : Int) ≥ (b : Int) := Int.ofNat_le.mpr h
      have hw : wrap_long ((a : Int) - (b : Int)) = (a : Int) - (b : Int) :=
        wrap_long_of_range _ (by omega) (by omega)
      rw [if_pos hc, if_pos hc, hw, ← Int.ofNat_sub h]
      exact ih (a - b) (by omega)
    · have hc : ¬ (a : Int) ≥ (b : Int) := fun hh => h (Int.ofNat_le.mp hh)
      rw [if_neg hc, if_neg hc]

/-- On naturals within `long`, `is_even` on `long` is the exact one. -/
theorem machine_is_even_eq (fuel n : Nat) (hn : (n : Int) ≤ LONG_MAX) :
    is_even fuel (n : Int) = Prime1948.is_even fuel (n : Int) := by
  induction fuel generalizing n with
  | zero => rfl
  | succ k ih =>
    unfold is_even Prime1948.is_even
    by_cases h : (n : Int) > 1
    · have hw : wrap_long ((n : Int) - 2) = (n : Int) - 2 :=
        wrap_long_of_range _ (by omega) (by omega)
      have e : (n : Int) - 2 = ((n - 2 : Nat) : Int) := by omega
      rw [if_pos h, if_pos h, hw, e]
      exact ih (n - 2) (by omega)
    · rw [if_neg h, if_neg h]

/-- Below `46339 * 46339` the loop of `is_prime` never squares an `i` above 46340, so
`i * i` and `i += 2` do not overflow and the loop is the exact one. -/
theorem machine_is_prime_for_eq (fuel num : Nat) (hn : num < 2147302921) (steps i : Nat)
    (hi : i ≤ 46340) :
    is_prime_for fuel (num : Int) steps (i : Int) =
      Prime1948.is_prime_for fuel (num : Int) steps (i : Int) := by
  induction steps generalizing i with
  | zero => rfl
  | succ k ih =>
    unfold is_prime_for Prime1948.is_prime_for
    have hsq : i * i ≤ 46340 * 46340 := Nat.mul_le_mul hi hi
    have hw : wrap ((i : Int) * (i : Int)) = (i : Int) * (i : Int) := by
      apply wrap_of_is_int
      have h0 : (0 : Int) ≤ (i : Int) * (i : Int) := by positivity
      have h1 : ((i * i : Nat) : Int) ≤ ((46340 * 46340 : Nat) : Int) := Int.ofNat_le.mpr hsq
      push_cast at h1
      unfold is_int INT_MIN INT_MAX
      constructor <;> omega
    rw [hw, machine_modulo_eq fuel num i (by unfold LONG_MAX; omega)]
    by_cases h : (i : Int) * (i : Int) ≤ (num : Int)
    · rw [if_pos h, if_pos h]
      have hlt : i < 46339 := by
        by_contra hge
        have h2 : 46339 * 46339 ≤ i * i := Nat.mul_le_mul (by omega) (by omega)
        have h3 : ((i * i : Nat) : Int) ≤ (num : Int) := by push_cast; exact h
        have h4 : i * i ≤ num := Int.ofNat_le.mp h3
        omega
      have hw2 : wrap ((i : Int) + 2) = ((i + 2 : Nat) : Int) := by
        rw [wrap_of_is_int _ (by unfold is_int INT_MIN INT_MAX; omega)]
        push_cast
        rfl
      have e2 : (i : Int) + 2 = ((i + 2 : Nat) : Int) := by push_cast; rfl
      rw [hw2, e2, ih (i + 2) (by omega)]
    · rw [if_neg h, if_neg h]

/-- Below `46339 * 46339`, `is_prime` with `int i` is the exact one. -/
theorem machine_is_prime_eq (fuel n : Nat) (hn : n < 2147302921) :
    is_prime fuel (n : Int) = Prime1948.is_prime fuel (n : Int) := by
  unfold is_prime Prime1948.is_prime
  have e3 : (3 : Int) = ((3 : Nat) : Int) := rfl
  rw [machine_is_even_eq fuel n (by unfold LONG_MAX; omega), e3,
    machine_is_prime_for_eq fuel n hn fuel 3 (by omega)]

/-- Below `46339 * 46339`, the loop of `largest_prime_divisor` with `int i` is the
exact one. -/
theorem machine_largest_for_eq (fuel num : Nat) (hn : num < 2147302921) (steps i : Nat)
    (largest : Int) :
    largest_for fuel (num : Int) steps (i : Int) largest =
      Prime1948.largest_for fuel (num : Int) steps (i : Int) largest := by
  induction steps generalizing i largest with
  | zero => rfl
  | succ k ih =>
    unfold largest_for Prime1948.largest_for
    by_cases h : (i : Int) ≤ (num : Int)
    · have hle : i ≤ num := Int.ofNat_le.mp h
      have hw : wrap ((i : Int) + 1) = ((i + 1 : Nat) : Int) := by
        rw [wrap_of_is_int _ (by unfold is_int INT_MIN INT_MAX; omega)]
        push_cast
        rfl
      have e1 : (i : Int) + 1 = ((i + 1 : Nat) : Int) := by push_cast; rfl
      rw [if_pos h, if_pos h, machine_is_prime_eq fuel i (by omega),
        machine_modulo_eq fuel num i (by unfold LONG_MAX; omega), hw, e1]
      simp only [ih]
    · rw [if_neg h, if_neg h]

/-- The loop of `largest_prime_divisor` at `num = INT_MAX`: the test `i <= num` holds
of every `int i`, so the loop is never left. -/
theorem machine_largest_for_int_max (fuel steps : Nat) (i largest : Int) (hi : is_int i) :
    largest_for fuel INT_MAX steps i largest = none := by
  induction steps generalizing i largest with
  | zero => rfl
  | succ k ih =>
    unfold largest_for
    rw [if_pos hi.2]
    cases is_prime fuel i with
    | none => rfl
    | some p =>
      simp only []
      by_cases hp : p ≠ 0
      · rw [if_pos hp]
        cases modulo_with_subtract fuel INT_MAX i with
        | none => rfl
        | some r =>
          simp only []
          split_ifs
          · exact ih _ _ (is_int_wrap _)
          · exact ih _ _ (is_int_wrap _)
      · rw [if_neg hp]
        exact ih _ _ (is_int_wrap _)

/-- Counterexample of C22: `num = INT_MAX = 2147483647` is within `int` range and at
least 2, but `largest_prime_divisor` returns nothing for it, whatever the fuel: its
loop test `i <= num` is true of every `int i` and `i++` wraps around. -/
theorem machine_largest_prime_divisor_int_max :
    (2 : Int) ≤ INT_MAX ∧ INT_MAX = 2147483647 ∧
    ¬ ∃ (fuel : Nat) (p : Int), largest_prime_divisor fuel INT_MAX = some p := by
  refine ⟨by decide, rfl, ?_⟩
  rintro ⟨fuel, p, h⟩
  unfold largest_prime_divisor at h
  rw [if_neg (by decide), machine_largest_for_int_max fuel fuel 2 1 (by decide)] at h
  exact Option.noConfusion h

/-- C22 as amended: for every `num` with `2 ≤ num < 46339 * 46339 = 2147302921`
(below which `i * i` in `is_prime` cannot overflow) and fuel above `num`,
`largest_prime_divisor` returns a prime `p` that divides `num` and is at least every
prime divisor of `num`; for every `num ≤ 1` it returns -1; and
`modulo_with_subtract a b` is `a mod b` for `a ≥ 0`, `b > 0` within `long` (fuel
above `a`). -/
theorem machine_largest_prime_divisor_spec (fuel : Nat) (num a b : Int) :
    (46339 : Int) * 46339 = 2147302921 ∧
    (2 ≤ num → num < 2147302921 → num < fuel →
      ∃ p : Nat, largest_prime_divisor fuel num = some (p : Int) ∧ p.Prime ∧
        (p : Int) ∣ num ∧ ∀ q : Nat, q.Prime → (q : Int) ∣ num → q ≤ p) ∧
    (num ≤ 1 → largest_prime_divisor fuel num = some (-1)) ∧
    (0 ≤ a → 0 < b → a ≤ LONG_MAX → a < fuel →
      modulo_with_subtract fuel a b = some (a % b)) := by
  refine ⟨by decide, ?_, ?_, ?_⟩
  · intro h2 hb hf
    lift num to Nat using (by omega)
    obtain ⟨p, hp, hpp, hpd, hmax⟩ :=
      largest_prime_divisor_nat fuel num (by omega) (by omega)
    have he : largest_prime_divisor fuel (num : Int) =
        Prime1948.largest_prime_divisor fuel (num : Int) := by
      unfold largest_prime_divisor Prime1948.largest_prime_divisor
      have e2 : (2 : Int) = ((2 : Nat) : Int) := rfl
      rw [e2, machine_largest_for_eq fuel num (by omega) fuel 2 1]
    exact ⟨p, he.trans hp, hpp, Int.natCast_dvd_natCast.mpr hpd,
      fun q hq hqd => hmax q hq (Int.natCast_dvd_natCast.mp hqd)⟩
  · intro h
    unfold largest_prime_divisor
    rw [if_pos h]
  · intro ha hb hl hf
    lift a to Nat using ha
    lift b to Nat using (le_of_lt hb)
    rw [machine_modulo_eq fuel a b hl, modulo_with_subtract_nat fuel a b (by omega) (by omega)]
    rfl

/-- Witness of the amended C22: `largest_prime_divisor(12)` is 3,
`largest_prime_divisor(1)` is -1 and `modulo_with_subtract(17, 5)` is 2. -/
theorem machine_largest_prime_divisor_spec_witness :
    (∃ p : Nat, largest_prime_divisor 13 12 = some (p : Int) ∧ p.Prime ∧
        (p : Int) ∣ 12 ∧ ∀ q : Nat, q.Prime → (q : Int) ∣ 12 → q ≤ p) ∧
    largest_prime_divisor 13 1 = some (-1) ∧
    modulo_with_subtract 18 17 5 = some (17 % 5) :=
  ⟨(machine_largest_prime_divisor_spec 13 12 17 5).2.1 (by decide) (by decide) (by decide),
    (machine_largest_prime_divisor_spec 13 1 17 5).2.2.1 (by decide),
    (machine_largest_prime_divisor_spec 18 12 17 5).2.2.2 (by decide) (by decide) (by decide)
      (by decide)⟩

end Prime1948.Machine

namespace Pong3.Machine

open MachineInt

/-! ## Where the tick on `int` is the tick on exact integers -/

theorem machine_ball_position_eq (g : GameState)
    (hx : is_int (g.ball.x + g.ball.speed_x)) (hy : is_int (g.ball.y + g.ball.speed_y)) :
    ball_position g = Pong3.ball_position g := by
  unfold ball_position Pong3.ball_position
  simp only [wrap_of_is_int _ hx, wrap_of_is_int _ hy]

theorem machine_collision_top_bottom_eq (g : GameState) (h : is_int (-g.ball.speed_y)) :
    collision_top_bottom g = Pong3.collision_top_bottom g := by
  unfold collision_top_bottom Pong3.collision_top_bottom
  rw [wrap_of_is_int _ h]

theorem machine_collision_rackets_eq (g : GameState) (h : is_int (-g.ball.speed_x))
    (hl : is_int (g.left_racket.x + 1)) (hr : is_int (g.right_racket.x - 1)) :
    collision_rackets g = Pong3.collision_rackets g := by
  unfold collision_rackets Pong3.collision_rackets
  rw [wrap_of_is_int _ h, wrap_of_is_int _ hl, wrap_of_is_int _ hr]

theorem machine_scoring_eq (g : GameState) (hl : is_int (g.left_score + 1))
    (hr : is_int (g.right_score + 1)) :
    scoring g = Pong3.scoring g := by
  unfold scoring Pong3.scoring
  rw [wrap_of_is_int _ hl, wrap_of_is_int _ hr]

theorem machine_racket_movement_eq (g : GameState) (c : Char)
    (hl : is_int (g.left_racket.start - 1) ∧ is_int (g.left_racket.end_ - 1) ∧
      is_int (g.left_racket.start + 1) ∧ is_int (g.left_racket.end_ + 1))
    (hr : is_int (g.right_racket.start - 1) ∧ is_int (g.right_racket.end_ - 1) ∧
      is_int (g.right_racket.start + 1) ∧ is_int (g.right_racket.end_ + 1)) :
    racket_movement g c = Pong3.racket_movement g c := by
  simp only [racket_movement, Pong3.racket_movement, wrap_of_is_int _ hl.1,
    wrap_of_is_int _ hl.2.1, wrap_of_is_int _ hl.2.2.1, wrap_of_is_int _ hl.2.2.2,
    wrap_of_is_int _ hr.1, wrap_of_is_int _ hr.2.1, wrap_of_is_int _ hr.2.2.1,
    wrap_of_is_int _ hr.2.2.2]

/-- On a state where no operation of the tick overflows, `update_game` on `int` is
`update_game` on exact integers. -/
theorem machine_update_game_eq (g : GameState) (c : Char) (h : tick_in_range g) :
    update_game g c = Pong3.update_game g c := by
  obtain ⟨hc, hx, hy, hsx, hsy, hlx, hrx, hls, hrs, hl, hr⟩ := h
  by_cases hg : g.ball.move_counter + 1 ≥ BALL_SPEED
  · have hg' : wrap (g.ball.move_counter + 1) ≥ BALL_SPEED := by
      rw [wrap_of_is_int _ hc]; exact hg
    rw [machine_update_game_open g c hg', Pong3.update_game_open g c hg, wrap_of_is_int _ hc]
    have e1 := machine_ball_position_eq
      { g with ball := { g.ball with move_counter := g.ball.move_counter + 1 } } hx hy
    have e2 := machine_collision_top_bottom_eq (Pong3.ball_position
      { g with ball := { g.ball with move_counter := g.ball.move_counter + 1 } }) hsy
    have f1 := collision_top_bottom_frame (Pong3.ball_position
      { g with ball := { g.ball with move_counter := g.ball.move_counter + 1 } })
    have e3 := machine_collision_rackets_eq (Pong3.collision_top_bottom (Pong3.ball_position
      { g with ball := { g.ball with move_counter := g.ball.move_counter + 1 } }))
      (by rw [f1.2.2.2.2.2.2.1]; exact hsx) (by rw [f1.1]; exact hlx)
      (by rw [f1.2.1]; exact hrx)
    have f2 := collision_rackets_frame (Pong3.collision_top_bottom (Pong3.ball_position
      { g with ball := { g.ball with move_counter := g.ball.move_counter + 1 } }))
    have e4 := machine_scoring_eq (Pong3.collision_rackets (Pong3.collision_top_bottom
      (Pong3.ball_position
        { g with ball := { g.ball with move_counter := g.ball.move_counter + 1 } })))
      (by rw [f2.2.2.1, f1.2.2.1]; exact hls) (by rw [f2.2.2.2.1, f1.2.2.2.1]; exact hrs)
    have f3 := Pong3.scoring_rackets (Pong3.collision_rackets (Pong3.collision_top_bottom
      (Pong3.ball_position
        { g with ball := { g.ball with move_counter := g.ball.move_counter + 1 } })))
    rw [e1, e2, e3, e4]
    exact machine_racket_movement_eq _ c (by rw [f3.1, f2.1, f1.1]; exact hl)
      (by rw [f3.2, f2.2.1, f1.2.1]; exact hr)
  · have hg' : ¬ wrap (g.ball.move_counter + 1) ≥ BALL_SPEED := by
      rw [wrap_of_is_int _ hc]; exact hg
    rw [machine_update_game_closed g c hg', Pong3.update_game_closed g c (not_le.mp hg),
      wrap_of_is_int _ hc]
    exact machine_racket_movement_eq _ c hl hr

/-- `init_game` leaves a state within 0 ticks. -/
theorem within_ticks_init (g : GameState) : within_ticks 0 (init_game g) :=
  ⟨ballInv_init g, racketInv_init g, Or.inr rfl, ⟨le_refl 0, show (0 : Int) < 5 by decide⟩,
    ⟨le_refl 0, le_refl 0⟩, ⟨le_refl 0, le_refl 0⟩⟩

/-- One more tick, on exact integers. -/
theorem within_ticks_update (k : Nat) (s : GameState) (c : Char) (h : within_ticks k s) :
    within_ticks (k + 1) (Pong3.update_game s c) := by
  obtain ⟨hb, hr, hsx, ⟨hc0, hc5⟩, ⟨l0, l1⟩, r0, r1⟩ := h
  refine ⟨ballInv_update s c hb, racketInv_update s c hr, ?_, ?_, ?_, ?_⟩
  · rcases (update_game_speed_cases s c).1 with e | e <;> rcases hsx with h | h <;>
      rw [e, h] <;> simp
  · rw [update_game_counter]
    simp only [BALL_SPEED] at *
    split_ifs <;> omega
  · rcases update_game_scores_cases s c with ⟨a, _⟩ | ⟨a, _⟩ | ⟨a, _⟩ <;> rw [a] <;>
      push_cast <;> omega
  · rcases update_game_scores_cases s c with ⟨_, b⟩ | ⟨_, b⟩ | ⟨_, b⟩ <;> rw [b] <;>
      push_cast <;> omega

/-- Within fewer than `2 ^ 31 - 1` ticks no operation of the next tick overflows. -/
theorem within_ticks_in_range (k : Nat) (s : GameState) (h : within_ticks k s)
    (hk : k < 2147483647) : tick_in_range s := by
  obtain ⟨⟨y1, y2, x1, x2, _, _, sy⟩, ⟨⟨a1, a2, a3, a4⟩, b1, b2, b3, b4⟩, hsx, ⟨hc0, hc5⟩,
    ⟨l0, l1⟩, r0, r1⟩ := h
  simp only [MAX_X, MAX_Y, BALL_SPEED] at *
  unfold tick_in_range is_int INT_MIN INT_MAX
  refine ⟨?_, ?_, ?_, ?_, ?_, ?_, ?_, ?_, ?_, ⟨?_, ?_, ?_, ?_⟩, ?_, ?_, ?_, ?_⟩ <;>
    constructor <;> omega

/-- Ticks on `int` and on exact integers give the same states as long as the number
of ticks stays below `2 ^ 31 - 1`. -/
theorem machine_foldl_eq (l : List Char) (s : GameState) (k : Nat) (h : within_ticks k s)
    (hk : k + l.length < 2147483648) :
    l.foldl update_game s = l.foldl Pong3.update_game s := by
  induction l generalizing s k with
  | nil => rfl
  | cons c t ih =>
    rw [List.length_cons] at hk
    rw [List.foldl_cons, List.foldl_cons,
      machine_update_game_eq s c (within_ticks_in_range k s h (by omega))]
    exact ih _ (k + 1) (within_ticks_update k s c h) (by omega)

/-- Every run of fewer than `2 ^ 31` ticks from `init_game` is the same on `int` and
on exact integers: there the exact `update_game` is the compiled one. -/
theorem machine_run_eq (game : GameState) (inputs : List Char)
    (h : inputs.length < 2147483648) :
    run game inputs = Pong3.run game inputs :=
  machine_foldl_eq inputs (init_game game) 0 (within_ticks_init game) (by omega)

end Pong3.Machine
